import Mathlib

/-!
Verification of the buildarr-lidarr reconciliation plugin.

Python strings are modelled as `List Char`, Python JSON values as `JVal`,
Python dicts (insertion ordered) as association lists `JObj`.  Network
effects are modelled by explicit traces of `ApiCall` values; the responses
to GET requests are passed in as parameters.
-/

namespace BuildarrLidarr

/-- A Python string, modelled as its list of characters. -/
abbrev Str := List Char

/-- Shorthand turning a Lean string literal into the `Str` model. -/
def js (s : String) : Str := s.toList

/-- A JSON value as handled by the plugin (remote objects, PUT/POST bodies). -/
inductive JVal where
  | s (v : Str)
  | num (v : Int)
  | b (v : Bool)
  | null
  | arr (l : List JVal)
  | obj (o : List (Str × JVal))

/-- JSON values are inhabited (by `null`). -/
instance : Inhabited JVal := ⟨JVal.null⟩

/-- A JSON object: a Python dict from field names to values, in insertion order. -/
abbrev JObj := List (Str × JVal)

/-- Dictionary lookup (`d[k]` / `d.get(k)`): first binding of the key wins. -/
def jLookup (k : Str) : JObj → Option JVal
  | [] => none
  | (k', v) :: rest => if k = k' then some v else jLookup k rest

/-- Python dict merge `\x7b**a, **b\x7d`: keys of `a` keep their position but take
`b`'s value when `b` also binds them; keys only in `b` are appended in order. -/
def dictUpdate (a b : JObj) : JObj :=
  (a.map fun kv =>
    match jLookup kv.1 b with
    | some v => (kv.1, v)
    | none => kv) ++
  b.filter fun kv => (jLookup kv.1 a).isNone

/-- Python truthiness of a JSON value (`bool(v)`). -/
def jTruthy : JVal → Bool
  | .s v => !v.isEmpty
  | .num v => v != 0
  | .b v => v
  | .null => false
  | .arr l => !l.isEmpty
  | .obj o => !o.isEmpty

/-- One HTTP call issued by the plugin, by endpoint. -/
inductive ApiCall where
  | getTags
  | postTag (body : JObj)
  | getRootFolders
  | postRootFolder (body : JObj)
  | delRootFolder (rfId : Nat)
  | getHostConfig
  | putHostConfig (cfgId : JVal) (body : JObj)
  | getNamingConfig
  | putNamingConfig (cfgId : JVal) (body : JObj)
  | getMediaManagementConfig
  | putMediaManagementConfig (cfgId : JVal) (body : JObj)
  | getMetadata
  | putMetadata (mdId : JVal) (body : JObj)

/-- The typed API error (`LidarrAPIError`) raised on a non-2xx response. -/
structure ApiError where
  msg : Str
  statusCode : Nat
deriving DecidableEq

/-- One entry of a field mapping table, specialised to a settings type `σ`:
the remote field name, whether the local and remote settings objects agree
on the local field, and the encoded value of the local field.
(`localName` is kept for reference; the resolver only emits remote names.) -/
structure MapEntry (σ : Type) where
  localName : Str
  remoteName : Str
  eqAt : σ → σ → Bool
  enc : σ → JVal

/-- Modelled from the spec: `get_update_remote_attrs` of the buildarr base
package (the Change-Set Resolver of spec section 4.2), which is not part of
this repository.  For every mapping entry it compares the local and remote
field values; `changed` is true iff some entry differs, and the returned
`remote_attrs` contains the encoded local value of every differing entry,
plus of every unchanged entry when `set_unchanged` is true. -/
def getUpdateRemoteAttrs {σ : Type} (tbl : List (MapEntry σ)) (localS remoteS : σ)
    (setUnchanged : Bool) : Bool × JObj :=
  (tbl.any fun e => !(e.eqAt localS remoteS),
   tbl.filterMap fun e =>
     if !(e.eqAt localS remoteS) || setUnchanged then some (e.remoteName, e.enc localS)
     else none)

/-- One entry of a field mapping table as seen by the decoder: the local and
remote field names, the `optional` flag, and the value decoder. -/
structure DecEntry where
  localName : Str
  remoteName : Str
  opt : Bool
  dec : JVal → JVal

/-- Modelled from the spec: `get_local_attrs` of the buildarr base package
(the decode direction of the Attribute Codec, spec section 4.1), which is
not part of this repository.  For each mapping entry in order it reads the
remote field; if absent and optional the entry is omitted (the caller's
default applies), if absent and not optional decoding fails with a
`MissingRemoteField` error naming the remote field, otherwise the decoder
is applied and the result assigned to the local name. -/
def getLocalAttrs : List DecEntry → JObj → Except Str JObj
  | [], _ => .ok []
  | e :: rest, o =>
    match jLookup e.remoteName o with
    | some v =>
      match getLocalAttrs rest o with
      | .ok attrs => .ok ((e.localName, e.dec v) :: attrs)
      | .error err => .error err
    | none => if e.opt then getLocalAttrs rest o else .error e.remoteName

/-! ### Python string primitives used by the field codecs -/

/-- Whitespace characters removed by Python `str.strip()` (ASCII range). -/
def pySpace (c : Char) : Bool :=
  c = ' ' || c = '\t' || c = '\n' || c = '\r' || c = '\x0b' || c = '\x0c'

/-- Python `s.strip()`: drop leading and trailing whitespace. -/
def pyStrip (s : Str) : Str :=
  ((s.dropWhile pySpace).reverse.dropWhile pySpace).reverse

/-- Python `s.split(sep)` for a one-character separator: split on every
occurrence, producing possibly empty parts (`"".split(",") == [""]`). -/
def pySplit (sep : Char) : Str → List Str
  | [] => [[]]
  | c :: cs =>
    if c = sep then [] :: pySplit sep cs
    else
      match pySplit sep cs with
      | [] => [[c]]
      | p :: ps => (c :: p) :: ps

/-- Python `sep.join(parts)` for a one-character separator. -/
def pyJoinC (sep : Char) : List Str → Str
  | [] => []
  | [p] => p
  | p :: q :: ps => p ++ sep :: pyJoinC sep (q :: ps)

/-! ### Field codecs appearing in the general settings mapping tables -/

/-- Encoder `v or ""` used for the optional text fields
(`url_base`, `proxyHostname`, `proxyUsername`, `updateScriptPath`, ...):
an unset or empty local value encodes to the empty string. -/
def encOptStr : Option Str → Str
  | none => []
  | some v => if v.isEmpty then [] else v

/-- Decoder `v or None` used for the optional text fields: the remote empty
string decodes to the unset local value `None`. -/
def decOptStr (v : Str) : Option Str :=
  if v.isEmpty then none else some v

/-- Encoder `v.get_secret_value() if v else ""` used for password fields; a
pydantic `SecretStr` is falsy exactly when the wrapped string is empty. -/
def encSecret : Option Str → Str
  | none => []
  | some v => if v.isEmpty then [] else v

/-- Decoder `v or None` for password fields (the non-empty remote string is
then wrapped into a `SecretStr` holding the same characters). -/
def decSecret (v : Str) : Option Str :=
  if v.isEmpty then none else some v

/-- Encoder of `ignored_addresses` (remote `proxyBypassFilter`):
Python `",".join(sorted(v)) if v else ""`.  The local value is a set of
strings; `sorted` lists it in ascending lexicographic order. -/
def encIgnored (s : Finset Str) : Str :=
  if s = ∅ then [] else pyJoinC ',' (s.sort (· ≤ ·))

/-- Decoder of `ignored_addresses`: Python
`set(addr.strip() for addr in v.split(",")) if v and v.strip() else []`. -/
def decIgnored (v : Str) : Finset Str :=
  if !v.isEmpty && !(pyStrip v).isEmpty then ((pySplit ',' v).map pyStrip).toFinset
  else ∅

/-- Local value of `bind_address`: the literal `"*"` or an IPv4 address
(`Union[Literal["*"], IPv4Address]`).  The `valid` predicate below states
which quadruples an `IPv4Address` can hold. -/
inductive BindAddress where
  | star
  | ipv4 (a b c d : Nat)
deriving DecidableEq

/-- The representable `bind_address` values: each octet is at most 255. -/
def BindAddress.valid : BindAddress → Prop
  | .star => True
  | .ipv4 a b c d => a ≤ 255 ∧ b ≤ 255 ∧ c ≤ 255 ∧ d ≤ 255

/-- Numeric value of an ASCII digit character (`int` of a one-digit string). -/
def dVal : Char → Nat
  | '0' => 0 | '1' => 1 | '2' => 2 | '3' => 3 | '4' => 4
  | '5' => 5 | '6' => 6 | '7' => 7 | '8' => 8 | '9' => 9
  | _ => 0

/-- Whether a character is an ASCII decimal digit. -/
def isDig (c : Char) : Bool :=
  decide (c ∈ ['0', '1', '2', '3', '4', '5', '6', '7', '8', '9'])

/-- Decimal rendering `str(n)` of an octet value (adequate for `n < 1000`). -/
def octStr (n : Nat) : Str :=
  if n < 10 then [Nat.digitChar n]
  else if n < 100 then [Nat.digitChar (n / 10), Nat.digitChar (n % 10)]
  else [Nat.digitChar (n / 100), Nat.digitChar (n / 10 % 10), Nat.digitChar (n % 10)]

/-- One octet of a dotted-quad IPv4 literal, as accepted by CPython's
`ipaddress` module: one to three ASCII digits, no leading zero in a
multi-digit octet, value at most 255. -/
def parseOctet : Str → Option Nat
  | [a] => if isDig a then some (dVal a) else none
  | [a, b] =>
    if isDig a && isDig b && a != '0' then some (10 * dVal a + dVal b) else none
  | [a, b, c] =>
    if isDig a && isDig b && isDig c && a != '0'
        && 100 * dVal a + 10 * dVal b + dVal c ≤ 255 then
      some (100 * dVal a + 10 * dVal b + dVal c)
    else none
  | _ => none

/-- Encoder of `bind_address`: the table entry's `lambda v: str(v)`;
`str` of an `IPv4Address` is the canonical dotted quad. -/
def encBind : BindAddress → Str
  | .star => js "*"
  | .ipv4 a b c d => pyJoinC '.' [octStr a, octStr b, octStr c, octStr d]

/-- Decoder of `bind_address`: the entry has no explicit decoder, so the
remote string is validated by pydantic against
`Union[Literal["*"], IPv4Address]` ("*" is tried first, then an IPv4
dotted-quad parse). -/
def decBind (v : Str) : Option BindAddress :=
  if v = js "*" then some .star
  else
    match pySplit '.' v with
    | [p1, p2, p3, p4] =>
      match parseOctet p1, parseOctet p2, parseOctet p3, parseOctet p4 with
      | some a, some b, some c, some d => some (.ipv4 a b c d)
      | _, _, _, _ => none
    | _ => none

/-- The `AuthenticationMethod` enumeration (`none` / `basic` / `forms`). -/
inductive AuthenticationMethod where
  | authNone
  | basic
  | form
deriving DecidableEq

/-- Remote value of an `AuthenticationMethod` member. -/
def encAuth : AuthenticationMethod → Str
  | .authNone => js "none"
  | .basic => js "basic"
  | .form => js "forms"

/-- The `CertificateValidation` enumeration. -/
inductive CertificateValidation where
  | enabled
  | localDisabled
  | disabled
deriving DecidableEq

/-- Remote value of a `CertificateValidation` member. -/
def encCertValidation : CertificateValidation → Str
  | .enabled => js "enabled"
  | .localDisabled => js "disabledForLocalAddresses"
  | .disabled => js "disabled"

/-- The `ProxyType` enumeration. -/
inductive ProxyType where
  | http
  | socks4
  | socks5
deriving DecidableEq

/-- Remote value of a `ProxyType` member. -/
def encProxyType : ProxyType → Str
  | .http => js "http"
  | .socks4 => js "socks4"
  | .socks5 => js "socks5"

/-- Decoder of `proxy_type`: pydantic validation of the remote string
against the `ProxyType` enumeration values. -/
def decProxyType (v : Str) : Option ProxyType :=
  if v = js "http" then some .http
  else if v = js "socks4" then some .socks4
  else if v = js "socks5" then some .socks5
  else none

/-- The `LidarrLogLevel` enumeration. -/
inductive LidarrLogLevel where
  | info
  | debug
  | trace
deriving DecidableEq

/-- Remote value of a `LidarrLogLevel` member. -/
def encLogLevel : LidarrLogLevel → Str
  | .info => js "info"
  | .debug => js "debug"
  | .trace => js "trace"

/-- The `UpdateMechanism` enumeration. -/
inductive UpdateMechanism where
  | builtin
  | script
  | external
  | apt
  | docker
deriving DecidableEq

/-- Remote value of an `UpdateMechanism` member. -/
def encUpdateMechanism : UpdateMechanism → Str
  | .builtin => js "builtIn"
  | .script => js "script"
  | .external => js "external"
  | .apt => js "apt"
  | .docker => js "docker"

/-! ### General settings groups (`general.py`) -/

/-- The `HostGeneralSettings` local fields. -/
structure HostGeneralSettings where
  bind_address : BindAddress
  port : Nat
  ssl_port : Nat
  use_ssl : Bool
  url_base : Option Str
  instance_name : Str
deriving DecidableEq

/-- The `HostGeneralSettings._remote_map`. -/
def hostRemoteMap : List (MapEntry HostGeneralSettings) :=
  [⟨js "bind_address", js "bindAddress",
    fun l r => decide (l.bind_address = r.bind_address), fun s => .s (encBind s.bind_address)⟩,
   ⟨js "port", js "port", fun l r => decide (l.port = r.port), fun s => .num s.port⟩,
   ⟨js "ssl_port", js "sslPort",
    fun l r => decide (l.ssl_port = r.ssl_port), fun s => .num s.ssl_port⟩,
   ⟨js "use_ssl", js "enableSsl",
    fun l r => decide (l.use_ssl = r.use_ssl), fun s => .b s.use_ssl⟩,
   ⟨js "url_base", js "urlBase",
    fun l r => decide (l.url_base = r.url_base), fun s => .s (encOptStr s.url_base)⟩,
   ⟨js "instance_name", js "instanceName",
    fun l r => decide (l.instance_name = r.instance_name), fun s => .s s.instance_name⟩]

/-- The `SecurityGeneralSettings` local fields. -/
structure SecurityGeneralSettings where
  authentication : AuthenticationMethod
  username : Option Str
  password : Option Str
  password_confirmation : Option Str
  certificate_validation : CertificateValidation
deriving DecidableEq

/-- Root encoder of `password_confirmation`:
`lambda self: self.password.get_secret_value()`.  The Python expression
raises `AttributeError` when `password` is `None`; that case is modelled
as the empty string and no claim exercises it. -/
def encPasswordConfirmation (s : SecurityGeneralSettings) : Str :=
  match s.password with
  | some p => p
  | none => []

/-- The `SecurityGeneralSettings._remote_map`. -/
def securityRemoteMap : List (MapEntry SecurityGeneralSettings) :=
  [⟨js "authentication", js "authenticationMethod",
    fun l r => decide (l.authentication = r.authentication),
    fun s => .s (encAuth s.authentication)⟩,
   ⟨js "username", js "username",
    fun l r => decide (l.username = r.username), fun s => .s (encOptStr s.username)⟩,
   ⟨js "password", js "password",
    fun l r => decide (l.password = r.password), fun s => .s (encSecret s.password)⟩,
   ⟨js "password_confirmation", js "passwordConfirmation",
    fun l r => decide (l.password_confirmation = r.password_confirmation),
    fun s => .s (encPasswordConfirmation s)⟩,
   ⟨js "certificate_validation", js "certificateValidation",
    fun l r => decide (l.certificate_validation = r.certificate_validation),
    fun s => .s (encCertValidation s.certificate_validation)⟩]

/-- The `ProxyGeneralSettings` local fields. -/
structure ProxyGeneralSettings where
  enable : Bool
  proxy_type : ProxyType
  hostname : Option Str
  port : Nat
  username : Option Str
  password : Option Str
  ignored_addresses : Finset Str
  bypass_proxy_for_local_addresses : Bool
deriving DecidableEq

/-- The `ProxyGeneralSettings._remote_map`. -/
def proxyRemoteMap : List (MapEntry ProxyGeneralSettings) :=
  [⟨js "enable", js "proxyEnabled",
    fun l r => decide (l.enable = r.enable), fun s => .b s.enable⟩,
   ⟨js "proxy_type", js "proxyType",
    fun l r => decide (l.proxy_type = r.proxy_type), fun s => .s (encProxyType s.proxy_type)⟩,
   ⟨js "hostname", js "proxyHostname",
    fun l r => decide (l.hostname = r.hostname), fun s => .s (encOptStr s.hostname)⟩,
   ⟨js "port", js "proxyPort", fun l r => decide (l.port = r.port), fun s => .num s.port⟩,
   ⟨js "username", js "proxyUsername",
    fun l r => decide (l.username = r.username), fun s => .s (encOptStr s.username)⟩,
   ⟨js "password", js "proxyPassword",
    fun l r => decide (l.password = r.password), fun s => .s (encSecret s.password)⟩,
   ⟨js "ignored_addresses", js "proxyBypassFilter",
    fun l r => decide (l.ignored_addresses = r.ignored_addresses),
    fun s => .s (encIgnored s.ignored_addresses)⟩,
   ⟨js "bypass_proxy_for_local_addresses", js "proxyBypassLocalAddresses",
    fun l r => decide (l.bypass_proxy_for_local_addresses = r.bypass_proxy_for_local_addresses),
    fun s => .b s.bypass_proxy_for_local_addresses⟩]

/-- The `LoggingGeneralSettings` local fields. -/
structure LoggingGeneralSettings where
  log_level : LidarrLogLevel
deriving DecidableEq

/-- The `LoggingGeneralSettings._remote_map`. -/
def loggingRemoteMap : List (MapEntry LoggingGeneralSettings) :=
  [⟨js "log_level", js "logLevel",
    fun l r => decide (l.log_level = r.log_level), fun s => .s (encLogLevel s.log_level)⟩]

/-- The `AnalyticsGeneralSettings` local fields. -/
structure AnalyticsGeneralSettings where
  send_anonymous_usage_data : Bool
deriving DecidableEq

/-- The `AnalyticsGeneralSettings._remote_map`. -/
def analyticsRemoteMap : List (MapEntry AnalyticsGeneralSettings) :=
  [⟨js "send_anonymous_usage_data", js "analyticsEnabled",
    fun l r => decide (l.send_anonymous_usage_data = r.send_anonymous_usage_data),
    fun s => .b s.send_anonymous_usage_data⟩]

/-- The `UpdatesGeneralSettings` local fields. -/
structure UpdatesGeneralSettings where
  branch : Str
  automatic : Bool
  mechanism : UpdateMechanism
  script_path : Option Str
deriving DecidableEq

/-- The `UpdatesGeneralSettings._remote_map`. -/
def updatesRemoteMap : List (MapEntry UpdatesGeneralSettings) :=
  [⟨js "branch", js "branch", fun l r => decide (l.branch = r.branch), fun s => .s s.branch⟩,
   ⟨js "automatic", js "updateAutomatically",
    fun l r => decide (l.automatic = r.automatic), fun s => .b s.automatic⟩,
   ⟨js "mechanism", js "updateMechanism",
    fun l r => decide (l.mechanism = r.mechanism),
    fun s => .s (encUpdateMechanism s.mechanism)⟩,
   ⟨js "script_path", js "updateScriptPath",
    fun l r => decide (l.script_path = r.script_path), fun s => .s (encOptStr s.script_path)⟩]

/-- The `BackupGeneralSettings` local fields. -/
structure BackupGeneralSettings where
  folder : Str
  interval : Nat
  retention : Nat
deriving DecidableEq

/-- The `BackupGeneralSettings._remote_map`. -/
def backupRemoteMap : List (MapEntry BackupGeneralSettings) :=
  [⟨js "folder", js "backupFolder",
    fun l r => decide (l.folder = r.folder), fun s => .s s.folder⟩,
   ⟨js "interval", js "backupInterval",
    fun l r => decide (l.interval = r.interval), fun s => .num s.interval⟩,
   ⟨js "retention", js "backupRetention",
    fun l r => decide (l.retention = r.retention), fun s => .num s.retention⟩]

/-- The `LidarrGeneralSettingsConfig`: the seven general sub-groups. -/
structure GeneralConfig where
  host : HostGeneralSettings
  security : SecurityGeneralSettings
  proxy : ProxyGeneralSettings
  logging : LoggingGeneralSettings
  analytics : AnalyticsGeneralSettings
  updates : UpdatesGeneralSettings
  backup : BackupGeneralSettings
deriving DecidableEq

/-- The `id` field name. -/
def kId : Str := js "id"

/-- The remote field names covered by the seven general mapping tables. -/
def generalMappedNames : List Str :=
  hostRemoteMap.map (·.remoteName) ++ securityRemoteMap.map (·.remoteName) ++
  proxyRemoteMap.map (·.remoteName) ++ loggingRemoteMap.map (·.remoteName) ++
  analyticsRemoteMap.map (·.remoteName) ++ updatesRemoteMap.map (·.remoteName) ++
  backupRemoteMap.map (·.remoteName)

/-- The PUT body constructed by `LidarrGeneralSettingsConfig.update_remote`:
the fresh snapshot merged, in order, with the seven sub-groups'
`remote_attrs` (each computed with `set_unchanged=True`, so its value
depends only on the local object). -/
def generalBody (self : GeneralConfig) (remote : GeneralConfig) (snap : JObj) : JObj :=
  dictUpdate
    (dictUpdate
      (dictUpdate
        (dictUpdate
          (dictUpdate
            (dictUpdate
              (dictUpdate snap
                (getUpdateRemoteAttrs hostRemoteMap self.host remote.host true).2)
              (getUpdateRemoteAttrs securityRemoteMap self.security remote.security true).2)
            (getUpdateRemoteAttrs proxyRemoteMap self.proxy remote.proxy true).2)
          (getUpdateRemoteAttrs loggingRemoteMap self.logging remote.logging true).2)
        (getUpdateRemoteAttrs analyticsRemoteMap self.analytics remote.analytics true).2)
      (getUpdateRemoteAttrs updatesRemoteMap self.updates remote.updates true).2)
    (getUpdateRemoteAttrs backupRemoteMap self.backup remote.backup true).2

/-- Model of `LidarrGeneralSettingsConfig.update_remote`.  The seven
sub-resolvers are all evaluated; if any reports a change, one fresh GET of
`/api/v1/config/host` (whose response is the parameter `snap`) and one PUT
of the merged body are issued.  Python would raise `KeyError` if the
snapshot lacked `id`; that unexercised case is modelled as a `null` id. -/
def generalUpdateRemote (self remote : GeneralConfig) (snap : JObj) : Bool × List ApiCall :=
  let host := getUpdateRemoteAttrs hostRemoteMap self.host remote.host true
  let security := getUpdateRemoteAttrs securityRemoteMap self.security remote.security true
  let proxy := getUpdateRemoteAttrs proxyRemoteMap self.proxy remote.proxy true
  let logging := getUpdateRemoteAttrs loggingRemoteMap self.logging remote.logging true
  let analytics := getUpdateRemoteAttrs analyticsRemoteMap self.analytics remote.analytics true
  let updates := getUpdateRemoteAttrs updatesRemoteMap self.updates remote.updates true
  let backup := getUpdateRemoteAttrs backupRemoteMap self.backup remote.backup true
  if host.1 || security.1 || proxy.1 || logging.1 || analytics.1 || updates.1 || backup.1 then
    (true,
     [.getHostConfig,
      .putHostConfig ((jLookup kId snap).getD .null) (generalBody self remote snap)])
  else (false, [])

/-! ### Media management settings (`media_management.py`) -/

/-- The `PropersAndRepacks` enumeration. -/
inductive PropersAndRepacks where
  | preferAndUpgrade
  | doNotUpgrade
  | doNotPrefer
deriving DecidableEq

/-- Remote value of a `PropersAndRepacks` member. -/
def encPropers : PropersAndRepacks → Str
  | .preferAndUpgrade => js "preferAndUpgrade"
  | .doNotUpgrade => js "doNotUpgrade"
  | .doNotPrefer => js "doNotPrefer"

/-- The `RescanArtistFolderAfterRefresh` enumeration. -/
inductive RescanArtistFolderAfterRefresh where
  | always
  | afterManual
  | never
deriving DecidableEq

/-- Remote value of a `RescanArtistFolderAfterRefresh` member. -/
def encRescan : RescanArtistFolderAfterRefresh → Str
  | .always => js "always"
  | .afterManual => js "afterManual"
  | .never => js "never"

/-- The `ChangeFileDate` enumeration. -/
inductive ChangeFileDate where
  | cfdNone
  | localAirDate
  | utcAirDate
deriving DecidableEq

/-- Remote value of a `ChangeFileDate` member. -/
def encChangeFileDate : ChangeFileDate → Str
  | .cfdNone => js "none"
  | .localAirDate => js "localAirDate"
  | .utcAirDate => js "utcAirDate"

/-- The `ChmodFolder` enumeration (octal permission strings). -/
inductive ChmodFolder where
  | m755
  | m775
  | m770
  | m750
  | m777
deriving DecidableEq

/-- Remote value of a `ChmodFolder` member. -/
def encChmodFolder : ChmodFolder → Str
  | .m755 => js "755"
  | .m775 => js "775"
  | .m770 => js "770"
  | .m750 => js "750"
  | .m777 => js "777"

/-- The `LidarrMediaManagementSettingsConfig` local fields.
`replace_illegal_characters` and `analyze_video_files` are declared in the
source but appear in no mapping table.  The Python `root_folders` set is
modelled as the list of its elements in iteration order, because
`_update_remote_rootfolder` iterates the set directly. -/
structure MediaManagementConfig where
  rename_tracks : Bool
  replace_illegal_characters : Bool
  delete_empty_folders : Bool
  skip_free_space_check : Bool
  minimum_free_space : Nat
  use_hardlinks : Bool
  import_extra_files : Bool
  propers_and_repacks : PropersAndRepacks
  analyze_video_files : Bool
  rescan_artist_folder_after_refresh : RescanArtistFolderAfterRefresh
  change_file_date : ChangeFileDate
  recycling_bin : Option Str
  recycling_bin_cleanup : Nat
  set_permissions : Bool
  chmod_folder : ChmodFolder
  chown_group : Option Str
  root_folders : List Str
  delete_unmanaged_root_folders : Bool
deriving DecidableEq

/-- The `_naming_remote_map`. -/
def namingRemoteMap : List (MapEntry MediaManagementConfig) :=
  [⟨js "rename_tracks", js "renameTracks",
    fun l r => decide (l.rename_tracks = r.rename_tracks), fun s => .b s.rename_tracks⟩]

/-- The `_mediamanagement_remote_map`. -/
def mediamanagementRemoteMap : List (MapEntry MediaManagementConfig) :=
  [⟨js "delete_empty_folders", js "deleteEmptyFolders",
    fun l r => decide (l.delete_empty_folders = r.delete_empty_folders),
    fun s => .b s.delete_empty_folders⟩,
   ⟨js "skip_free_space_check", js "skipFreeSpaceCheckWhenImporting",
    fun l r => decide (l.skip_free_space_check = r.skip_free_space_check),
    fun s => .b s.skip_free_space_check⟩,
   ⟨js "minimum_free_space", js "minimumFreeSpaceWhenImporting",
    fun l r => decide (l.minimum_free_space = r.minimum_free_space),
    fun s => .num s.minimum_free_space⟩,
   ⟨js "use_hardlinks", js "copyUsingHardlinks",
    fun l r => decide (l.use_hardlinks = r.use_hardlinks), fun s => .b s.use_hardlinks⟩,
   ⟨js "import_extra_files", js "importExtraFiles",
    fun l r => decide (l.import_extra_files = r.import_extra_files),
    fun s => .b s.import_extra_files⟩,
   ⟨js "propers_and_repacks", js "downloadPropersAndRepacks",
    fun l r => decide (l.propers_and_repacks = r.propers_and_repacks),
    fun s => .s (encPropers s.propers_and_repacks)⟩,
   ⟨js "rescan_artist_folder_after_refresh", js "rescanAfterRefresh",
    fun l r =>
      decide (l.rescan_artist_folder_after_refresh = r.rescan_artist_folder_after_refresh),
    fun s => .s (encRescan s.rescan_artist_folder_after_refresh)⟩,
   ⟨js "change_file_date", js "fileDate",
    fun l r => decide (l.change_file_date = r.change_file_date),
    fun s => .s (encChangeFileDate s.change_file_date)⟩,
   ⟨js "recycling_bin", js "recycleBin",
    fun l r => decide (l.recycling_bin = r.recycling_bin),
    fun s => .s (encOptStr s.recycling_bin)⟩,
   ⟨js "recycling_bin_cleanup", js "recycleBinCleanupDays",
    fun l r => decide (l.recycling_bin_cleanup = r.recycling_bin_cleanup),
    fun s => .num s.recycling_bin_cleanup⟩,
   ⟨js "set_permissions", js "setPermissionsLinux",
    fun l r => decide (l.set_permissions = r.set_permissions), fun s => .b s.set_permissions⟩,
   ⟨js "chmod_folder", js "chmodFolder",
    fun l r => decide (l.chmod_folder = r.chmod_folder),
    fun s => .s (encChmodFolder s.chmod_folder)⟩,
   ⟨js "chown_group", js "chownGroup",
    fun l r => decide (l.chown_group = r.chown_group),
    fun s => .s (encOptStr s.chown_group)⟩]

/-- The remote names of the naming mapping table. -/
def namingMappedNames : List Str := namingRemoteMap.map (·.remoteName)

/-- The remote names of the mediamanagement mapping table. -/
def mediamanagementMappedNames : List Str :=
  mediamanagementRemoteMap.map (·.remoteName)

/-- The PUT body of `_update_remote_naming`: the dict literal
`\x7b"id": config_id, **remote_attrs\x7d` — only the `id` is taken from the
fresh snapshot. -/
def namingBody (self remote : MediaManagementConfig) (snap : JObj) : JObj :=
  dictUpdate [(kId, (jLookup kId snap).getD .null)]
    (getUpdateRemoteAttrs namingRemoteMap self remote true).2

/-- Model of `_update_remote_naming`.  `snap` is the response to the fresh
GET of `/api/v1/config/naming`, used only for its `id`.
Python would raise `KeyError` if the snapshot lacked `id`; that
unexercised case is modelled as a `null` id. -/
def mmNamingUpdate (self remote : MediaManagementConfig) (snap : JObj) : Bool × List ApiCall :=
  let res := getUpdateRemoteAttrs namingRemoteMap self remote true
  if res.1 then
    (true,
     [.getNamingConfig,
      .putNamingConfig ((jLookup kId snap).getD .null) (namingBody self remote snap)])
  else (false, [])

/-- The PUT body of `_update_remote_mediamanagement`, same shape as the
naming body. -/
def mediamanagementBody (self remote : MediaManagementConfig) (snap : JObj) : JObj :=
  dictUpdate [(kId, (jLookup kId snap).getD .null)]
    (getUpdateRemoteAttrs mediamanagementRemoteMap self remote true).2

/-- Model of `_update_remote_mediamanagement` (same shape as the naming
updater, against `/api/v1/config/mediamanagement`). -/
def mmMediamanagementUpdate (self remote : MediaManagementConfig) (snap : JObj) :
    Bool × List ApiCall :=
  let res := getUpdateRemoteAttrs mediamanagementRemoteMap self remote true
  if res.1 then
    (true,
     [.getMediaManagementConfig,
      .putMediaManagementConfig ((jLookup kId snap).getD .null)
        (mediamanagementBody self remote snap)])
  else (false, [])

/-- The POST body creating a root folder. -/
def rootFolderBody (p : Str) : JObj :=
  [(js "path", .s p), (js "name", .s p),
   (js "defaultQualityProfileId", .num 1), (js "defaultMetadataProfileId", .num 1)]

/-- The creation loop shared by the tag and root-folder reconcilers: for
each local entry in the order given, an entry already present remotely is
left alone, an absent one is created with `mk` and marks `changed`. -/
def createLoop (mk : Str → ApiCall) (current : List Str) : List Str → Bool × List ApiCall
  | [] => (false, [])
  | t :: ts =>
    let rest := createLoop mk current ts
    if t ∈ current then rest
    else (true, mk t :: rest.2)

/-- Model of `_update_remote_rootfolder`: iterates `self.root_folders` (a
Python set) directly, in the set's iteration order. -/
def mmRootFolderUpdate (self : MediaManagementConfig) (currentRf : List (Str × Nat)) :
    Bool × List ApiCall :=
  let res :=
    createLoop (fun p => .postRootFolder (rootFolderBody p)) (currentRf.map (·.1))
      self.root_folders
  (res.1, .getRootFolders :: res.2)

/-- Model of `LidarrMediaManagementSettingsConfig.update_remote`:
`any` over the list of the three sub-updaters' results, all evaluated. -/
def mmUpdateRemote (self remote : MediaManagementConfig) (namingSnap mmSnap : JObj)
    (currentRf : List (Str × Nat)) : Bool × List ApiCall :=
  let n := mmNamingUpdate self remote namingSnap
  let m := mmMediamanagementUpdate self remote mmSnap
  let r := mmRootFolderUpdate self currentRf
  (n.1 || m.1 || r.1, n.2 ++ m.2 ++ r.2)

/-- Deletion loop of `_delete_remote_rootfolder`: for each remote root
folder (in the fetched dict's order) whose path is not locally expected,
delete it when `flag` (`delete_unmanaged_root_folders`) is set. -/
def rfDeleteLoop (expected : List Str) (flag : Bool) : List (Str × Nat) → Bool × List ApiCall
  | [] => (false, [])
  | (p, pid) :: rest =>
    let r := rfDeleteLoop expected flag rest
    if p ∈ expected then r
    else if flag then (true, .delRootFolder pid :: r.2)
    else r

/-- Model of `_delete_remote_rootfolder` (via `delete_remote`).
`currentRf` is the fetched remote root-folder collection (path, id). -/
def mmDeleteRemote (self : MediaManagementConfig) (currentRf : List (Str × Nat)) :
    Bool × List ApiCall :=
  let r := rfDeleteLoop self.root_folders self.delete_unmanaged_root_folders currentRf
  (r.1, .getRootFolders :: r.2)

/-! ### Tags settings (`tags.py`) -/

/-- Python `sorted` on a list of strings: ascending lexicographic order. -/
def sortStr (l : List Str) : List Str := List.insertionSort (· ≤ ·) l

/-- The POST body creating a tag. -/
def tagBody (t : Str) : JObj := [(js "label", .s t)]

/-- Model of `LidarrTagsSettingsConfig.update_remote`.  `definitions` is
the local tag set in iteration order; the loop runs over
`sorted(self.definitions)` and only when the set is non-empty.
`currentTags` is the fetched remote tag collection (label, id). -/
def tagsUpdateRemote (definitions : List Str) (currentTags : List (Str × Nat)) :
    Bool × List ApiCall :=
  if definitions.isEmpty then (false, [.getTags])
  else
    let res :=
      createLoop (fun t => .postTag (tagBody t)) (currentTags.map (·.1)) (sortStr definitions)
    (res.1, .getTags :: res.2)

/-- The tag creation loop with a fallible POST: `fails t` is the typed API
error raised by `api_post` when creating tag `t`, if any.  Returns the
labels successfully created (in creation order), the `changed` flag as far
as the loop got, and the propagated error, if one occurred.  The loop does
not catch the error, retry, or roll anything back. -/
def tagsCreateLoopF (current : List Str) (fails : Str → Option ApiError) :
    List Str → List Str × Bool × Option ApiError
  | [] => ([], false, none)
  | t :: ts =>
    if t ∈ current then tagsCreateLoopF current fails ts
    else
      match fails t with
      | some e => ([], false, some e)
      | none =>
        let rest := tagsCreateLoopF current fails ts
        (t :: rest.1, true, rest.2.2)

/-- Model of the tags `update_remote` with a fallible POST. -/
def tagsUpdateRemoteF (definitions : List Str) (currentTags : List (Str × Nat))
    (fails : Str → Option ApiError) : List Str × Bool × Option ApiError :=
  if definitions.isEmpty then ([], false, none)
  else tagsCreateLoopF (currentTags.map (·.1)) fails (sortStr definitions)

/-! ### Metadata settings (`metadata.py`) -/

/-- A metadata output configuration (`Metadata` subclasses declare no
fields beyond `enable`). -/
structure MetadataCfg where
  enable : Bool
deriving DecidableEq

/-- The `_base_remote_map + _remote_map` for every metadata type; each
subclass's own `_remote_map` is empty, so only `enable` is mapped. -/
def metadataRemoteMap : List (MapEntry MetadataCfg) :=
  [⟨js "enable", js "enable", fun l r => decide (l.enable = r.enable), fun s => .b s.enable⟩]

/-- The field names used by the metadata endpoint. -/
def kFields : Str := js "fields"

/-- The JSON key `name`. -/
def kName : Str := js "name"

/-- The JSON key `value`. -/
def kValue : Str := js "value"

/-- The JSON key `implementation`. -/
def kImplementation : Str := js "implementation"

/-- The JSON key `enable`. -/
def kEnable : Str := js "enable"

/-- Errors a metadata operation can raise. -/
inductive MetaError where
  | keyErrorFields
  | corruptKodi
  | corruptRoksbox
  | corruptWdtv
  | missingRemoteField (name : Str)
  | validation
deriving DecidableEq

/-- The dict comprehension over the popped `fields` value
(only reachable if the resolver ever emitted a `fields` key; malformed
entries, on which Python would raise, are skipped). -/
def updatedFieldsOf : JVal → JObj
  | .arr l =>
    l.filterMap fun f =>
      match f with
      | .obj o =>
        match jLookup kName o, jLookup kValue o with
        | some (.s n), some v => some (n, v)
        | _, _ => none
      | _ => none
  | _ => []

/-- The list comprehension rebuilding `api_metadata["fields"]` with updated
values. -/
def mergeFields (apiFields : List JVal) (upd : JObj) : List JVal :=
  apiFields.map fun field =>
    match field with
    | .obj o =>
      match jLookup kName o with
      | some (.s n) =>
        match jLookup n upd with
        | some v => .obj (dictUpdate o [(kValue, v)])
        | none => field
      | _ => field
    | _ => field

/-- Model of `Metadata._update_remote`.  When the resolver reports a
change it unconditionally pops `fields` from `remote_attrs`; a missing key
is the Python `KeyError`, modelled as `MetaError.keyErrorFields`.  On the
(never reached) success path the PUT body merges the snapshot, the
remaining attrs and the rebuilt fields list. -/
def metadataUpdateOne (localM remoteM : MetadataCfg) (apiMeta : JObj) :
    Except MetaError (Bool × List ApiCall) :=
  let res := getUpdateRemoteAttrs metadataRemoteMap localM remoteM true
  if res.1 then
    match jLookup kFields res.2 with
    | none => .error .keyErrorFields
    | some fv =>
      let attrsRest := res.2.filter fun kv => kv.1 ≠ kFields
      let apiFields :=
        match jLookup kFields apiMeta with
        | some (.arr l) => l
        | _ => []
      let fields := mergeFields apiFields (updatedFieldsOf fv)
      .ok (true,
        [.putMetadata ((jLookup kId apiMeta).getD .null)
          (dictUpdate (dictUpdate apiMeta attrsRest) [(kFields, .arr fields)])])
  else .ok (false, [])

/-- The implementation name of `KodiEmbyMetadata`. -/
def implXbmc : Str := js "XbmcMetadata"

/-- The implementation name of `RoksboxMetadata`. -/
def implRoksbox : Str := js "RoksboxMetadata"

/-- The implementation name of `WdtvMetadata`. -/
def implWdtv : Str := js "WdtvMetadata"

/-- The scan loop shared by `from_remote` and `update_remote`: the last
list entry whose `implementation` equals `impl`, if any. -/
def findImpl (impl : Str) (metaList : List JObj) : Option JObj :=
  metaList.foldl
    (fun acc m =>
      match jLookup kImplementation m with
      | some (.s s) => if s = impl then some m else acc
      | _ => acc)
    none

/-- The three `is None` checks of `from_remote` / `update_remote`, in
source order; a missing implementation entry raises the corresponding
corrupt-remote-state `RuntimeError`. -/
def findMetadataTriple (metaList : List JObj) : Except MetaError (JObj × JObj × JObj) :=
  match findImpl implXbmc metaList with
  | none => .error .corruptKodi
  | some k =>
    match findImpl implRoksbox metaList with
    | none => .error .corruptRoksbox
    | some r =>
      match findImpl implWdtv metaList with
      | none => .error .corruptWdtv
      | some w => .ok (k, r, w)

/-- The decode mapping table of a metadata type (no optional entries, no
decoders). -/
def mdDecMap : List DecEntry := [⟨js "enable", js "enable", false, id⟩]

/-- Model of `Metadata._from_remote`: decode through the mapping table,
then pydantic validation of the `enable` attribute as a boolean. -/
def metadataFromRemoteOne (m : JObj) : Except MetaError MetadataCfg :=
  match getLocalAttrs mdDecMap m with
  | .error name => .error (.missingRemoteField name)
  | .ok attrs =>
    match jLookup kEnable attrs with
    | some (.b b) => .ok ⟨b⟩
    | _ => .error .validation

/-- The `LidarrMetadataSettingsConfig`: the three metadata outputs. -/
structure MetadataConfig where
  kodi_emby : MetadataCfg
  roksbox : MetadataCfg
  wdtv : MetadataCfg
deriving DecidableEq

/-- Model of `LidarrMetadataSettingsConfig.from_remote`.  `metaList` is
the fetched `/api/v1/metadata` list. -/
def metadataFromRemote (metaList : List JObj) : Except MetaError MetadataConfig :=
  match findMetadataTriple metaList with
  | .error e => .error e
  | .ok (k, r, w) =>
    match metadataFromRemoteOne k, metadataFromRemoteOne r, metadataFromRemoteOne w with
    | .ok kc, .ok rc, .ok wc => .ok ⟨kc, rc, wc⟩
    | .error e, _, _ => .error e
    | _, .error e, _ => .error e
    | _, _, .error e => .error e

/-- Model of `LidarrMetadataSettingsConfig.update_remote`: one GET of the
metadata list, the three corrupt-state checks, then the three sub-updaters
in order inside `any([...])`; an exception in one sub-updater propagates
before the following ones run.  The second component is the call trace as
far as the run got. -/
def metadataUpdateRemote (self remote : MetadataConfig) (metaList : List JObj) :
    Except MetaError Bool × List ApiCall :=
  match findMetadataTriple metaList with
  | .error e => (.error e, [.getMetadata])
  | .ok (k, r, w) =>
    match metadataUpdateOne self.kodi_emby remote.kodi_emby k with
    | .error e => (.error e, [.getMetadata])
    | .ok resK =>
      match metadataUpdateOne self.roksbox remote.roksbox r with
      | .error e => (.error e, .getMetadata :: resK.2)
      | .ok resR =>
        match metadataUpdateOne self.wdtv remote.wdtv w with
        | .error e => (.error e, .getMetadata :: (resK.2 ++ resR.2))
        | .ok resW =>
          (.ok (resK.1 || resR.1 || resW.1), .getMetadata :: (resK.2 ++ resR.2 ++ resW.2))

/-! ### Security decode table (`get_local_attrs` instantiation, claim C10) -/

/-- The JVal form of the `lambda v: v or None` decoder: a falsy remote
value (empty string, null, ...) decodes to `None`. -/
def decOrNone (v : JVal) : JVal :=
  if jTruthy v then v else .null

/-- The `SecurityGeneralSettings._remote_map` as seen by the decoder:
`username`, `password` and `password_confirmation` are optional with the
`v or None` decoder; the enumeration entries have no decoder. -/
def securityDecMap : List DecEntry :=
  [⟨js "authentication", js "authenticationMethod", false, id⟩,
   ⟨js "username", js "username", true, decOrNone⟩,
   ⟨js "password", js "password", true, decOrNone⟩,
   ⟨js "password_confirmation", js "passwordConfirmation", true, decOrNone⟩,
   ⟨js "certificate_validation", js "certificateValidation", false, id⟩]

/-- Construction-time default of the optional security fields: a local
attribute omitted by `get_local_attrs` takes the declared default `None`. -/
def securityOptDefault (attrs : JObj) (localName : Str) : JVal :=
  (jLookup localName attrs).getD .null

/-! ### Auxiliary definitions used to state the claims -/

/-- The default codec of a mapping entry that declares neither an encoder
nor a decoder: the identity on the remote representation. -/
def idCodec (v : JVal) : JVal := v

/-- The path created by a root-folder POST call, if the call is one. -/
def rfPostPath : ApiCall → Option Str
  | .postRootFolder body =>
    match jLookup (js "path") body with
    | some (.s p) => some p
    | _ => none
  | _ => none

/-- The label created by a tag POST call, if the call is one. -/
def tagPostLabel : ApiCall → Option Str
  | .postTag body =>
    match jLookup (js "label") body with
    | some (.s t) => some t
    | _ => none
  | _ => none

/-- The remote tag collection after a (possibly aborted) update pass: the
initially fetched labels plus the labels successfully created. -/
def remoteTagsAfter (currentTags : List (Str × Nat)) (posted : List Str) : Finset Str :=
  (currentTags.map (·.1)).toFinset ∪ posted.toFinset

/-- A sample media-management configuration (the pydantic defaults), with
the given root folders and unmanaged-deletion flag. -/
def mmSample (rfs : List Str) (flag : Bool) : MediaManagementConfig :=
  ⟨false, true, false, false, 100, true, false, .doNotPrefer, true, .always, .cfdNone,
   none, 7, false, .m755, none, rfs, flag⟩

/-- A sample general-settings configuration (the pydantic defaults). -/
def generalSample : GeneralConfig :=
  ⟨⟨.star, 8989, 9898, false, none, js "Lidarr"⟩,
   ⟨.authNone, none, none, none, .enabled⟩,
   ⟨false, .http, none, 8080, none, none, ∅, true⟩,
   ⟨.info⟩, ⟨true⟩, ⟨js "main", false, .docker, none⟩, ⟨js "Backups", 7, 28⟩⟩

end BuildarrLidarr

namespace BuildarrLidarr

/-! ### Helper lemmas -/

/-- Characterization of the creation loop: `changed` is true iff some
entry is absent remotely, and the calls create exactly the absent entries
in the traversal order. -/
theorem createLoop_eq (mk : Str → ApiCall) (cur : List Str) (l : List Str) :
    createLoop mk cur l =
      (l.any fun t => !(decide (t ∈ cur)),
       (l.filter fun t => !(decide (t ∈ cur))).map mk) := by
  induction l with
  | nil => rfl
  | cons t ts ih =>
    simp only [createLoop, ih, List.any_cons, List.filter_cons]
    by_cases h : t ∈ cur
    · simp [h]
    · simp [h]

/-- Characterization of the tags reconciler. -/
theorem tagsUpdateRemote_eq (defs : List Str) (cur : List (Str × Nat)) :
    tagsUpdateRemote defs cur =
      ((sortStr defs).any fun t => !(decide (t ∈ cur.map (·.1))),
       .getTags ::
         ((sortStr defs).filter fun t => !(decide (t ∈ cur.map (·.1)))).map
           fun t => .postTag (tagBody t)) := by
  unfold tagsUpdateRemote
  by_cases h : defs.isEmpty
  · have : defs = [] := by simpa [List.isEmpty_iff] using h
    subst this
    simp [sortStr, List.insertionSort]
  · simp [h, createLoop_eq]

/-- Characterization of the root-folder create pass. -/
theorem mmRootFolderUpdate_eq (self : MediaManagementConfig) (cur : List (Str × Nat)) :
    mmRootFolderUpdate self cur =
      (self.root_folders.any fun t => !(decide (t ∈ cur.map (·.1))),
       .getRootFolders ::
         (self.root_folders.filter fun t => !(decide (t ∈ cur.map (·.1)))).map
           fun t => .postRootFolder (rootFolderBody t)) := by
  unfold mmRootFolderUpdate
  simp [createLoop_eq]

/-- Characterization of the root-folder delete pass with deletion enabled. -/
theorem rfDeleteLoop_true_eq (expected : List Str) (cur : List (Str × Nat)) :
    rfDeleteLoop expected true cur =
      (cur.any fun e => !(decide (e.1 ∈ expected)),
       (cur.filter fun e => !(decide (e.1 ∈ expected))).map fun e => .delRootFolder e.2) := by
  induction cur with
  | nil => rfl
  | cons e es ih =>
    obtain ⟨p, pid⟩ := e
    simp only [rfDeleteLoop, ih, List.any_cons, List.filter_cons]
    by_cases h : p ∈ expected
    · simp [h]
    · simp [h]

/-- The delete pass is inert when deletion of unmanaged entries is off. -/
theorem rfDeleteLoop_false_eq (expected : List Str) (cur : List (Str × Nat)) :
    rfDeleteLoop expected false cur = (false, []) := by
  induction cur with
  | nil => rfl
  | cons e es ih =>
    obtain ⟨p, pid⟩ := e
    simp only [rfDeleteLoop, ih]
    by_cases h : p ∈ expected
    · simp [h]
    · simp [h]

/-- C5: root-folder deletion gating.  With
`delete_unmanaged_root_folders = false` the delete pass reports no change
and issues no DELETE; with it `true` it deletes exactly the remote entries
whose path is not locally desired (in the fetched order) and reports a
change iff at least one such entry existed. -/
theorem c5_delete_unmanaged_gating :
    (∀ (self : MediaManagementConfig) (cur : List (Str × Nat)),
      self.delete_unmanaged_root_folders = false →
        mmDeleteRemote self cur = (false, [.getRootFolders])) ∧
    (∀ (self : MediaManagementConfig) (cur : List (Str × Nat)),
      self.delete_unmanaged_root_folders = true →
        (mmDeleteRemote self cur).2 =
          .getRootFolders ::
            (cur.filter fun e => !(decide (e.1 ∈ self.root_folders))).map
              (fun e => .delRootFolder e.2) ∧
        ((mmDeleteRemote self cur).1 = true ↔ ∃ e ∈ cur, e.1 ∉ self.root_folders)) := by
  constructor
  · intro self cur h
    unfold mmDeleteRemote
    rw [h, rfDeleteLoop_false_eq]
  · intro self cur h
    unfold mmDeleteRemote
    rw [h, rfDeleteLoop_true_eq]
    constructor
    · rfl
    · simp [List.any_eq_true]

/-- Witness for C5 at a concrete configuration and remote collection. -/
theorem c5_witness :
    mmDeleteRemote (mmSample [js "a"] false) [(js "a", 1), (js "b", 2)]
      = (false, [.getRootFolders]) ∧
    ((mmDeleteRemote (mmSample [js "a"] true) [(js "a", 1), (js "b", 2)]).1 = true ↔
      ∃ e ∈ [(js "a", 1), (js "b", 2)], e.1 ∉ (mmSample [js "a"] true).root_folders) :=
  ⟨c5_delete_unmanaged_gating.1 _ _ rfl, (c5_delete_unmanaged_gating.2 _ _ rfl).2⟩

end BuildarrLidarr

namespace BuildarrLidarr

/-- C2 counterexample: with the local root-folder set iterating as
`b, a, c` and an empty remote collection, the root-folder reconciler
issues its creation POSTs in the set's iteration order `b, a, c`, not in
sorted order `a, b, c`. -/
theorem c2_counterexample :
    ((mmRootFolderUpdate (mmSample [js "b", js "a", js "c"] false) []).2).filterMap rfPostPath
      = [js "b", js "a", js "c"] ∧
    sortStr [js "b", js "a", js "c"] = [js "a", js "b", js "c"] ∧
    ((mmRootFolderUpdate (mmSample [js "b", js "a", js "c"] false) []).2).filterMap rfPostPath
      ≠ sortStr [js "b", js "a", js "c"] := by
  refine ⟨rfl, by decide, by decide⟩

/-- C2 amended: the tags reconciler iterates `sorted(definitions)`, so its
creation POSTs are issued in ascending sorted order and its outcome does
not depend on the set's iteration order; the root-folder reconciler
iterates the local set directly, issuing creation POSTs in the set's
iteration order (not sorted). -/
theorem c2_creation_order :
    (∀ (defs : List Str) (cur : List (Str × Nat)),
      tagsUpdateRemote defs cur =
        ((sortStr defs).any fun t => !(decide (t ∈ cur.map (·.1))),
         .getTags ::
           ((sortStr defs).filter fun t => !(decide (t ∈ cur.map (·.1)))).map
             fun t => .postTag (tagBody t))) ∧
    (∀ (d₁ d₂ : List Str) (cur : List (Str × Nat)), d₁.Perm d₂ →
      tagsUpdateRemote d₁ cur = tagsUpdateRemote d₂ cur) ∧
    (∀ (self : MediaManagementConfig) (cur : List (Str × Nat)),
      mmRootFolderUpdate self cur =
        (self.root_folders.any fun t => !(decide (t ∈ cur.map (·.1))),
         .getRootFolders ::
           (self.root_folders.filter fun t => !(decide (t ∈ cur.map (·.1)))).map
             fun t => .postRootFolder (rootFolderBody t))) := by
  refine ⟨tagsUpdateRemote_eq, ?_, mmRootFolderUpdate_eq⟩
  intro d₁ d₂ cur h
  have hsort : sortStr d₁ = sortStr d₂ := by
    refine List.eq_of_perm_of_sorted ?_ (List.sorted_insertionSort _ _)
      (List.sorted_insertionSort _ _)
    exact (List.perm_insertionSort _ _).trans (h.trans (List.perm_insertionSort _ _).symm)
  rw [tagsUpdateRemote_eq, tagsUpdateRemote_eq, hsort]

/-- Witness for C2 at concrete permuted tag sets. -/
theorem c2_witness :
    tagsUpdateRemote [js "b", js "a"] [] = tagsUpdateRemote [js "a", js "b"] [] :=
  c2_creation_order.2.1 _ _ _ (by decide)

end BuildarrLidarr

namespace BuildarrLidarr

/-- Shape of the fallible tag creation loop when the POST of `tFail` (the
first absent tag after `done`) raises `e` and every earlier absent tag was
created successfully. -/
theorem tagsCreateLoopF_spec (cur : List Str) (fails : Str → Option ApiError) (e : ApiError)
    (tFail : Str) :
    ∀ (l done rest : List Str),
      (l.filter fun t => !(decide (t ∈ cur))) = done ++ tFail :: rest →
      (∀ t ∈ done, fails t = none) → fails tFail = some e →
      tagsCreateLoopF cur fails l = (done, !done.isEmpty, some e) := by
  intro l
  induction l with
  | nil =>
    intro done rest hsplit
    simp at hsplit
  | cons t ts ih =>
    intro done rest hsplit hdone hfail
    by_cases hmem : t ∈ cur
    · rw [List.filter_cons_of_neg (by simpa using hmem)] at hsplit
      simpa [tagsCreateLoopF, hmem] using ih done rest hsplit hdone hfail
    · rw [List.filter_cons_of_pos (by simpa using hmem)] at hsplit
      cases done with
      | nil =>
        simp only [List.nil_append] at hsplit
        obtain ⟨hT, hrest⟩ := List.cons.inj hsplit
        simp [tagsCreateLoopF, hmem, hT ▸ hfail]
      | cons d ds =>
        simp only [List.cons_append] at hsplit
        obtain ⟨hT, hrest⟩ := List.cons.inj hsplit
        subst hT
        have hdT : fails t = none := hdone t (by simp)
        have := ih ds rest hrest (fun x hx => hdone x (by simp [hx])) hfail
        simp [tagsCreateLoopF, hmem, hdT, this]

/-- C9: when the POST creating the k-th absent tag raises a typed API
error, the error propagates out of the update pass uncaught, the loop
stops there, and the remote collection retains the k-1 tags created
earlier in the pass (no rollback). -/
theorem c9_failed_tag_post (defs : List Str) (cur : List (Str × Nat))
    (fails : Str → Option ApiError) (e : ApiError) (tFail : Str) (done rest : List Str)
    (hsplit : ((sortStr defs).filter fun t => !(decide (t ∈ cur.map (·.1))))
      = done ++ tFail :: rest)
    (hdone : ∀ t ∈ done, fails t = none) (hfail : fails tFail = some e) :
    tagsUpdateRemoteF defs cur fails = (done, !done.isEmpty, some e) ∧
    remoteTagsAfter cur (tagsUpdateRemoteF defs cur fails).1 =
      (cur.map (·.1)).toFinset ∪ done.toFinset := by
  have hne : defs ≠ [] := by
    intro h
    subst h
    simp [sortStr, List.insertionSort] at hsplit
  have : tagsUpdateRemoteF defs cur fails = (done, !done.isEmpty, some e) := by
    unfold tagsUpdateRemoteF
    rw [if_neg (by simpa [List.isEmpty_iff] using hne)]
    exact tagsCreateLoopF_spec _ _ _ _ _ done rest hsplit hdone hfail
  refine ⟨this, ?_⟩
  rw [this]
  rfl

/-- Witness for C9: three local tags `a, b, c`, empty remote collection,
the POST of `b` (the second creation in sorted order) fails; `a` was
created and is retained. -/
theorem c9_witness :
    tagsUpdateRemoteF [js "b", js "a", js "c"] []
        (fun t => if t = js "b" then some ⟨js "boom", 500⟩ else none)
      = ([js "a"], true, some ⟨js "boom", 500⟩) ∧
    remoteTagsAfter []
        (tagsUpdateRemoteF [js "b", js "a", js "c"] []
          (fun t => if t = js "b" then some ⟨js "boom", 500⟩ else none)).1
      = (([] : List (Str × Nat)).map (·.1)).toFinset ∪ [js "a"].toFinset := by
  have := c9_failed_tag_post [js "b", js "a", js "c"] []
    (fun t => if t = js "b" then some ⟨js "boom", 500⟩ else none)
    ⟨js "boom", 500⟩ (js "b") [js "a"] [js "c"] (by decide) (by decide) (by decide)
  simpa using this

end BuildarrLidarr

namespace BuildarrLidarr

/-- With `set_unchanged = true` the resolver's `remote_attrs` keys are
exactly the remote names of the mapping table, in order. -/
theorem getUpdateRemoteAttrs_keys {σ : Type} (tbl : List (MapEntry σ)) (l r : σ) :
    ((getUpdateRemoteAttrs tbl l r true).2).map Prod.fst = tbl.map MapEntry.remoteName := by
  induction tbl with
  | nil => rfl
  | cons e es ih =>
    simp only [getUpdateRemoteAttrs, List.filterMap_cons, Bool.or_true, if_pos] at ih ⊢
    simpa using ih

/-- C6: when the local desired state equals the decoded remote state, the
general orchestrator reports no change and issues no call at all; the
resolver is nonetheless run with `set_unchanged = true`, whose
`remote_attrs` always covers every mapping entry. -/
theorem c6_noop_stability :
    (∀ (cfg : GeneralConfig) (snap : JObj), generalUpdateRemote cfg cfg snap = (false, [])) ∧
    (∀ (σ : Type) (tbl : List (MapEntry σ)) (l r : σ),
      ((getUpdateRemoteAttrs tbl l r true).2).map Prod.fst = tbl.map MapEntry.remoteName) := by
  constructor
  · intro cfg snap
    simp [generalUpdateRemote, getUpdateRemoteAttrs, hostRemoteMap, securityRemoteMap,
      proxyRemoteMap, loggingRemoteMap, analyticsRemoteMap, updatesRemoteMap, backupRemoteMap]
  · intro σ tbl l r
    exact getUpdateRemoteAttrs_keys tbl l r

/-- A metadata sub-update with equal local and remote settings reports no
change and issues no call. -/
theorem metadataUpdateOne_self (m : MetadataCfg) (api : JObj) :
    metadataUpdateOne m m api = .ok (false, []) := by
  obtain ⟨b⟩ := m
  cases b <;> rfl

/-- A metadata sub-update whose resolver reports a change fails with the
`KeyError` of `remote_attrs.pop("fields")` before reaching the PUT. -/
theorem metadataUpdateOne_ne (l r : MetadataCfg) (h : l ≠ r) (api : JObj) :
    metadataUpdateOne l r api = .error .keyErrorFields := by
  obtain ⟨lb⟩ := l
  obtain ⟨rb⟩ := r
  cases lb <;> cases rb <;> first | exact absurd rfl h | rfl

end BuildarrLidarr

namespace BuildarrLidarr

/-- C7 counterexample: with all three metadata types differing locally
from the remote, the metadata orchestrator does not return the OR of its
sub-results (which would be `true`); it propagates the `fields` KeyError
raised inside the first sub-updater, and the later sub-updaters never
run (the trace stops at the initial GET). -/
theorem c7_counterexample :
    metadataUpdateRemote ⟨⟨true⟩, ⟨true⟩, ⟨true⟩⟩ ⟨⟨false⟩, ⟨false⟩, ⟨false⟩⟩
        [[(kImplementation, .s implXbmc)], [(kImplementation, .s implRoksbox)],
         [(kImplementation, .s implWdtv)]]
      = (.error .keyErrorFields, [.getMetadata]) := rfl

/-- C7 amended: the general and media-management orchestrators evaluate
every sub-resolver and return the boolean OR of the sub-results; the
metadata orchestrator returns the OR only when no sub-resolver reports a
change (the OR is then `false`); as soon as one of its sub-resolvers
reports a change it fails with the `fields` KeyError instead of
returning. -/
theorem c7_orchestrator_aggregation :
    (∀ (self remote : GeneralConfig) (snap : JObj),
      (generalUpdateRemote self remote snap).1 =
        ((getUpdateRemoteAttrs hostRemoteMap self.host remote.host true).1 ||
         (getUpdateRemoteAttrs securityRemoteMap self.security remote.security true).1 ||
         (getUpdateRemoteAttrs proxyRemoteMap self.proxy remote.proxy true).1 ||
         (getUpdateRemoteAttrs loggingRemoteMap self.logging remote.logging true).1 ||
         (getUpdateRemoteAttrs analyticsRemoteMap self.analytics remote.analytics true).1 ||
         (getUpdateRemoteAttrs updatesRemoteMap self.updates remote.updates true).1 ||
         (getUpdateRemoteAttrs backupRemoteMap self.backup remote.backup true).1)) ∧
    (∀ (self remote : MediaManagementConfig) (namingSnap mmSnap : JObj)
        (currentRf : List (Str × Nat)),
      mmUpdateRemote self remote namingSnap mmSnap currentRf =
        ((mmNamingUpdate self remote namingSnap).1 ||
         (mmMediamanagementUpdate self remote mmSnap).1 ||
         (mmRootFolderUpdate self currentRf).1,
         (mmNamingUpdate self remote namingSnap).2 ++
         (mmMediamanagementUpdate self remote mmSnap).2 ++
         (mmRootFolderUpdate self currentRf).2)) ∧
    (∀ (self : MetadataConfig) (metaList : List JObj) (k r w : JObj),
      findMetadataTriple metaList = .ok (k, r, w) →
        metadataUpdateRemote self self metaList = (.ok false, [.getMetadata])) ∧
    (∀ (self remote : MetadataConfig) (metaList : List JObj) (k r w : JObj),
      findMetadataTriple metaList = .ok (k, r, w) → self ≠ remote →
        (metadataUpdateRemote self remote metaList).1 = .error .keyErrorFields) := by
  refine ⟨?_, ?_, ?_, ?_⟩
  · intro self remote snap
    by_cases h :
      ((getUpdateRemoteAttrs hostRemoteMap self.host remote.host true).1 ||
       (getUpdateRemoteAttrs securityRemoteMap self.security remote.security true).1 ||
       (getUpdateRemoteAttrs proxyRemoteMap self.proxy remote.proxy true).1 ||
       (getUpdateRemoteAttrs loggingRemoteMap self.logging remote.logging true).1 ||
       (getUpdateRemoteAttrs analyticsRemoteMap self.analytics remote.analytics true).1 ||
       (getUpdateRemoteAttrs updatesRemoteMap self.updates remote.updates true).1 ||
       (getUpdateRemoteAttrs backupRemoteMap self.backup remote.backup true).1) = true
    · simp [generalUpdateRemote, h]
    · simp only [Bool.not_eq_true] at h
      simp [generalUpdateRemote, h]
  · intro self remote namingSnap mmSnap currentRf
    rfl
  · intro self metaList k r w h
    simp [metadataUpdateRemote, h, metadataUpdateOne_self]
  · intro self remote metaList k r w h hne
    by_cases h1 : self.kodi_emby = remote.kodi_emby
    · by_cases h2 : self.roksbox = remote.roksbox
      · by_cases h3 : self.wdtv = remote.wdtv
        · exfalso
          apply hne
          obtain ⟨a, b, c⟩ := self
          obtain ⟨a', b', c'⟩ := remote
          simp_all
        · have hk : metadataUpdateOne self.kodi_emby remote.kodi_emby k = .ok (false, []) := by
            rw [h1]; exact metadataUpdateOne_self _ _
          have hr : metadataUpdateOne self.roksbox remote.roksbox r = .ok (false, []) := by
            rw [h2]; exact metadataUpdateOne_self _ _
          simp [metadataUpdateRemote, h, hk, hr, metadataUpdateOne_ne _ _ h3]
      · have hk : metadataUpdateOne self.kodi_emby remote.kodi_emby k = .ok (false, []) := by
          rw [h1]; exact metadataUpdateOne_self _ _
        simp [metadataUpdateRemote, h, hk, metadataUpdateOne_ne _ _ h2]
    · simp [metadataUpdateRemote, h, metadataUpdateOne_ne _ _ h1]

/-- Witness for C7 at a concrete metadata configuration. -/
theorem c7_witness :
    metadataUpdateRemote ⟨⟨false⟩, ⟨false⟩, ⟨false⟩⟩ ⟨⟨false⟩, ⟨false⟩, ⟨false⟩⟩
        [[(kImplementation, .s implXbmc)], [(kImplementation, .s implRoksbox)],
         [(kImplementation, .s implWdtv)]]
      = (.ok false, [.getMetadata]) ∧
    (metadataUpdateRemote ⟨⟨true⟩, ⟨false⟩, ⟨false⟩⟩ ⟨⟨false⟩, ⟨false⟩, ⟨false⟩⟩
        [[(kImplementation, .s implXbmc)], [(kImplementation, .s implRoksbox)],
         [(kImplementation, .s implWdtv)]]).1 = .error .keyErrorFields :=
  ⟨c7_orchestrator_aggregation.2.2.1 _ _ _ _ _ rfl,
   c7_orchestrator_aggregation.2.2.2 _ _ _ _ _ _ rfl (by decide)⟩

end BuildarrLidarr

namespace BuildarrLidarr

/-- Lookup distributes over append when the key is absent on the left. -/
theorem jLookup_append_none (k : Str) (xs ys : JObj) (h : jLookup k xs = none) :
    jLookup k (xs ++ ys) = jLookup k ys := by
  induction xs with
  | nil => rfl
  | cons kv xs ih =>
    obtain ⟨k', v⟩ := kv
    by_cases hk : k = k'
    · simp [jLookup, hk] at h
    · simp only [jLookup, List.cons_append, if_neg hk] at h ⊢
      exact ih h

/-- A key absent from a dict is absent from any filtering of it. -/
theorem jLookup_filter_none (k : Str) (b : JObj) (p : Str × JVal → Bool)
    (h : jLookup k b = none) : jLookup k (b.filter p) = none := by
  induction b with
  | nil => rfl
  | cons kv b ih =>
    obtain ⟨k', v⟩ := kv
    by_cases hk : k = k'
    · simp [jLookup, hk] at h
    · simp only [jLookup, if_neg hk] at h
      rw [List.filter_cons]
      by_cases hp : p (k', v)
      · simp only [hp, if_pos, jLookup, if_neg hk]
        exact ih h
      · simp only [hp, Bool.false_eq_true, if_neg]
        exact ih h

/-- Lookup in the first half of a dict merge: the keys of `a` are kept in
place, so when `b` does not bind `k` the merged value at `k` is `a`'s. -/
theorem jLookup_mapUpd (k : Str) (a b : JObj) (hb : jLookup k b = none) :
    jLookup k (a.map fun kv =>
      match jLookup kv.1 b with
      | some v => (kv.1, v)
      | none => kv) = jLookup k a := by
  induction a with
  | nil => rfl
  | cons kv a ih =>
    obtain ⟨k', v⟩ := kv
    by_cases hk : k = k'
    · subst hk
      simp only [List.map_cons]
      cases h' : jLookup k b with
      | none => simp [jLookup]
      | some w => rw [hb] at h'; cases h'
    · simp only [List.map_cons]
      cases h' : jLookup k' b with
      | none => simp only [jLookup, if_neg hk]; exact ih
      | some w => simp only [h', jLookup, if_neg hk]; exact ih

/-- Lookup stays in the first half of an append when it hits there. -/
theorem jLookup_append_some (k : Str) (xs ys : JObj) (v : JVal)
    (h : jLookup k xs = some v) : jLookup k (xs ++ ys) = some v := by
  induction xs with
  | nil => cases h
  | cons kv xs ih =>
    obtain ⟨k', w⟩ := kv
    by_cases hk : k = k'
    · simp only [jLookup, List.cons_append, if_pos hk] at h ⊢
      exact h
    · simp only [jLookup, List.cons_append, if_neg hk] at h ⊢
      exact ih h

/-- Python dict merge keeps every key of the base dict that the update
dict does not bind. -/
theorem jLookup_dictUpdate (k : Str) (a b : JObj) (hb : jLookup k b = none) :
    jLookup k (dictUpdate a b) = jLookup k a := by
  unfold dictUpdate
  cases ha : jLookup k (a.map fun kv =>
      match jLookup kv.1 b with
      | some v => (kv.1, v)
      | none => kv) with
  | none =>
    rw [jLookup_append_none _ _ _ ha, jLookup_filter_none _ _ _ hb]
    rw [jLookup_mapUpd _ _ _ hb] at ha
    exact ha.symm
  | some v =>
    rw [jLookup_append_some _ _ _ _ ha, ← ha, jLookup_mapUpd _ _ _ hb]

/-- The resolver emits no attribute outside the mapping table's remote
names. -/
theorem getUpdateRemoteAttrs_lookup_none {σ : Type} (tbl : List (MapEntry σ)) (l r : σ)
    (su : Bool) (k : Str) (hk : k ∉ tbl.map MapEntry.remoteName) :
    jLookup k (getUpdateRemoteAttrs tbl l r su).2 = none := by
  induction tbl with
  | nil => rfl
  | cons e es ih =>
    simp only [List.map_cons, List.mem_cons, not_or] at hk
    obtain ⟨hne, hk'⟩ := hk
    simp only [getUpdateRemoteAttrs, List.filterMap_cons]
    by_cases hc : (!e.eqAt l r || su) = true
    · simp only [hc, if_pos, jLookup, if_neg hne]
      exact ih hk'
    · simp only [hc, if_neg, Bool.false_eq_true]
      exact ih hk'

end BuildarrLidarr

namespace BuildarrLidarr

/-- C1 counterexample: the naming and mediamanagement sub-groups' PUT
bodies are the dict literal of `id` and the mapped attributes only.  With
a fresh naming snapshot carrying an unmanaged remote field
`colonReplacementFormat`, the resolver reports a change (local
`rename_tracks` differs), and the PUT body drops that unmanaged field
instead of passing it through unchanged; likewise a fresh mediamanagement
snapshot's unmanaged field `unmonitorPreviousTracks` is dropped from the
mediamanagement PUT body when local `delete_empty_folders` differs. -/
theorem c1_counterexample :
    jLookup (js "colonReplacementFormat")
        [(kId, .num 1), (js "colonReplacementFormat", .num 4)] = some (.num 4) ∧
    (mmNamingUpdate { mmSample [] false with rename_tracks := true } (mmSample [] false)
        [(kId, .num 1), (js "colonReplacementFormat", .num 4)]).1 = true ∧
    (mmNamingUpdate { mmSample [] false with rename_tracks := true } (mmSample [] false)
        [(kId, .num 1), (js "colonReplacementFormat", .num 4)]).2 =
      [.getNamingConfig,
       .putNamingConfig (.num 1) [(kId, .num 1), (js "renameTracks", .b true)]] ∧
    jLookup (js "colonReplacementFormat") [(kId, .num 1), (js "renameTracks", .b true)]
      = none ∧
    jLookup (js "unmonitorPreviousTracks")
        [(kId, .num 2), (js "unmonitorPreviousTracks", .b true)] = some (.b true) ∧
    (mmMediamanagementUpdate { mmSample [] false with delete_empty_folders := true }
        (mmSample [] false)
        [(kId, .num 2), (js "unmonitorPreviousTracks", .b true)]).1 = true ∧
    jLookup (js "unmonitorPreviousTracks")
        (mediamanagementBody { mmSample [] false with delete_empty_folders := true }
          (mmSample [] false)
          [(kId, .num 2), (js "unmonitorPreviousTracks", .b true)]) = none :=
  ⟨rfl, rfl, rfl, rfl, rfl, rfl, rfl⟩

/-- C1 amended: on a reported change, the general orchestrator fetches a
fresh snapshot and PUTs `remote_attrs` merged over the whole snapshot, so
every remote field outside the mapping tables passes through unchanged;
the media-management naming sub-group (and likewise the mediamanagement
sub-group) fetches the fresh snapshot only for its `id`, and its PUT body
consists of `id` and the mapped attributes alone — unmanaged snapshot
fields are dropped. -/
theorem c1_fresh_fetch_merge :
    (∀ (self remote : GeneralConfig) (snap : JObj) (k : Str), k ∉ generalMappedNames →
      jLookup k (generalBody self remote snap) = jLookup k snap) ∧
    (∀ (self remote : GeneralConfig) (snap : JObj),
      (generalUpdateRemote self remote snap).1 = true →
        (generalUpdateRemote self remote snap).2 =
          [.getHostConfig,
           .putHostConfig ((jLookup kId snap).getD .null) (generalBody self remote snap)]) ∧
    (∀ (self remote : MediaManagementConfig) (snap : JObj) (k : Str),
      k ≠ kId → k ∉ namingMappedNames → jLookup k (namingBody self remote snap) = none) ∧
    (∀ (self remote : MediaManagementConfig) (snap : JObj),
      (mmNamingUpdate self remote snap).1 = true →
        (mmNamingUpdate self remote snap).2 =
          [.getNamingConfig,
           .putNamingConfig ((jLookup kId snap).getD .null) (namingBody self remote snap)]) ∧
    (∀ (self remote : MediaManagementConfig) (snap : JObj) (k : Str),
      k ≠ kId → k ∉ mediamanagementMappedNames →
        jLookup k (mediamanagementBody self remote snap) = none) ∧
    (∀ (self remote : MediaManagementConfig) (snap : JObj),
      (mmMediamanagementUpdate self remote snap).1 = true →
        (mmMediamanagementUpdate self remote snap).2 =
          [.getMediaManagementConfig,
           .putMediaManagementConfig ((jLookup kId snap).getD .null)
             (mediamanagementBody self remote snap)]) := by
  refine ⟨?_, ?_, ?_, ?_, ?_, ?_⟩
  · intro self remote snap k hk
    simp only [generalMappedNames, List.mem_append, not_or] at hk
    obtain ⟨⟨⟨⟨⟨⟨h1, h2⟩, h3⟩, h4⟩, h5⟩, h6⟩, h7⟩
      := hk
    unfold generalBody
    rw [jLookup_dictUpdate _ _ _ (getUpdateRemoteAttrs_lookup_none _ _ _ _ _ h7),
      jLookup_dictUpdate _ _ _ (getUpdateRemoteAttrs_lookup_none _ _ _ _ _ h6),
      jLookup_dictUpdate _ _ _ (getUpdateRemoteAttrs_lookup_none _ _ _ _ _ h5),
      jLookup_dictUpdate _ _ _ (getUpdateRemoteAttrs_lookup_none _ _ _ _ _ h4),
      jLookup_dictUpdate _ _ _ (getUpdateRemoteAttrs_lookup_none _ _ _ _ _ h3),
      jLookup_dictUpdate _ _ _ (getUpdateRemoteAttrs_lookup_none _ _ _ _ _ h2),
      jLookup_dictUpdate _ _ _ (getUpdateRemoteAttrs_lookup_none _ _ _ _ _ h1)]
  · intro self remote snap h
    by_cases hc :
      ((getUpdateRemoteAttrs hostRemoteMap self.host remote.host true).1 ||
       (getUpdateRemoteAttrs securityRemoteMap self.security remote.security true).1 ||
       (getUpdateRemoteAttrs proxyRemoteMap self.proxy remote.proxy true).1 ||
       (getUpdateRemoteAttrs loggingRemoteMap self.logging remote.logging true).1 ||
       (getUpdateRemoteAttrs analyticsRemoteMap self.analytics remote.analytics true).1 ||
       (getUpdateRemoteAttrs updatesRemoteMap self.updates remote.updates true).1 ||
       (getUpdateRemoteAttrs backupRemoteMap self.backup remote.backup true).1) = true
    · simp [generalUpdateRemote, hc]
    · exfalso
      simp [generalUpdateRemote, hc] at h
  · intro self remote snap k hkid hk
    have h1 : jLookup k
        (getUpdateRemoteAttrs namingRemoteMap self remote true).2 = none :=
      getUpdateRemoteAttrs_lookup_none _ _ _ _ _ (by simpa [namingMappedNames] using hk)
    unfold namingBody dictUpdate
    have h0 : jLookup k ([(kId, (jLookup kId snap).getD JVal.null)].map fun kv =>
        match jLookup kv.1 (getUpdateRemoteAttrs namingRemoteMap self remote true).2 with
        | some v => (kv.1, v)
        | none => kv) = none := by
      rcases h2 : jLookup kId (getUpdateRemoteAttrs namingRemoteMap self remote true).2
          with _ | v <;>
        simp [jLookup, h2, hkid]
    rw [jLookup_append_none _ _ _ h0, jLookup_filter_none _ _ _ h1]
  · intro self remote snap h
    by_cases hc : (getUpdateRemoteAttrs namingRemoteMap self remote true).1 = true
    · simp [mmNamingUpdate, hc]
    · exfalso
      simp [mmNamingUpdate, hc] at h
  · intro self remote snap k hkid hk
    have h1 : jLookup k
        (getUpdateRemoteAttrs mediamanagementRemoteMap self remote true).2 = none :=
      getUpdateRemoteAttrs_lookup_none _ _ _ _ _
        (by simpa [mediamanagementMappedNames] using hk)
    unfold mediamanagementBody dictUpdate
    have h0 : jLookup k ([(kId, (jLookup kId snap).getD JVal.null)].map fun kv =>
        match jLookup kv.1 (getUpdateRemoteAttrs mediamanagementRemoteMap self remote true).2
          with
        | some v => (kv.1, v)
        | none => kv) = none := by
      rcases h2 : jLookup kId (getUpdateRemoteAttrs mediamanagementRemoteMap self remote true).2
          with _ | v <;>
        simp [jLookup, h2, hkid]
    rw [jLookup_append_none _ _ _ h0, jLookup_filter_none _ _ _ h1]
  · intro self remote snap h
    by_cases hc : (getUpdateRemoteAttrs mediamanagementRemoteMap self remote true).1 = true
    · simp [mmMediamanagementUpdate, hc]
    · exfalso
      simp [mmMediamanagementUpdate, hc] at h

/-- Witness for C1 at a concrete configuration and snapshot. -/
theorem c1_witness :
    jLookup (js "extraField")
        (generalBody generalSample generalSample [(js "extraField", .num 7)])
      = jLookup (js "extraField") [(js "extraField", .num 7)] ∧
    jLookup (js "extraField")
        (namingBody (mmSample [] false) (mmSample [] false) [(kId, .num 1)]) = none ∧
    jLookup (js "extraField")
        (mediamanagementBody (mmSample [] false) (mmSample [] false) [(kId, .num 1)])
      = none :=
  ⟨c1_fresh_fetch_merge.1 _ _ _ _ (by decide),
   c1_fresh_fetch_merge.2.2.1 _ _ _ _ (by decide) (by decide),
   c1_fresh_fetch_merge.2.2.2.2.1 _ _ _ _ (by decide) (by decide)⟩

end BuildarrLidarr

namespace BuildarrLidarr

/-- C3: when a metadata resolver reports a change, its `remote_attrs`
covers exactly the one mapped field `enable` — there is no `fields` key —
so the unconditional `remote_attrs.pop("fields")` raises `KeyError` and
the PUT is never issued. -/
theorem c3_fields_pop_key_error :
    (getUpdateRemoteAttrs metadataRemoteMap ⟨true⟩ ⟨false⟩ true).1 = true ∧
    ((getUpdateRemoteAttrs metadataRemoteMap ⟨true⟩ ⟨false⟩ true).2).map Prod.fst
      = [js "enable"] ∧
    jLookup kFields (getUpdateRemoteAttrs metadataRemoteMap ⟨true⟩ ⟨false⟩ true).2 = none ∧
    metadataUpdateOne ⟨true⟩ ⟨false⟩ [(kId, .num 1), (kFields, .arr [])]
      = .error .keyErrorFields :=
  ⟨rfl, rfl, rfl, rfl⟩

end BuildarrLidarr

namespace BuildarrLidarr

theorem findImpl_foldl_eq_none (impl : Str) (l : List JObj) :
    ∀ (acc : Option JObj),
      (l.foldl (fun acc m =>
        match jLookup kImplementation m with
        | some (.s s) => if s = impl then some m else acc
        | _ => acc) acc) = none ↔
      acc = none ∧ ∀ m ∈ l, jLookup kImplementation m ≠ some (.s impl) := by
  induction l with
  | nil => intro acc; simp
  | cons m ms ih =>
    intro acc
    rw [List.foldl_cons, ih]
    have hstep : (match jLookup kImplementation m with
        | some (.s s) => if s = impl then some m else acc
        | _ => acc) = none ↔
        acc = none ∧ jLookup kImplementation m ≠ some (.s impl) := by
      rcases hj : jLookup kImplementation m with _ | v
      · simp [hj]
      · cases v with
        | s s =>
          by_cases hs : s = impl
          · subst hs
            simp [hj]
          · simp [hj, hs]
        | num v => simp [hj]
        | b v => simp [hj]
        | null => simp [hj]
        | arr l => simp [hj]
        | obj o => simp [hj]
    rw [hstep]
    simp only [List.forall_mem_cons]
    tauto

end BuildarrLidarr

namespace BuildarrLidarr

end BuildarrLidarr

namespace BuildarrLidarr

/-- The `findImpl` finds nothing iff the fetched metadata list lacks an entry
with the sought implementation name. -/
theorem findImpl_eq_none_iff (impl : Str) (metaList : List JObj) :
    findImpl impl metaList = none ↔
      ∀ m ∈ metaList, jLookup kImplementation m ≠ some (.s impl) := by
  rw [show findImpl impl metaList = metaList.foldl (fun acc m =>
      match jLookup kImplementation m with
      | some (.s s) => if s = impl then some m else acc
      | _ => acc) none from rfl]
  rw [findImpl_foldl_eq_none]
  simp

/-- A metadata sub-update either reports no change or fails with the
`fields` KeyError — it never raises a corrupt-remote-state error. -/
theorem metadataUpdateOne_cases (l r : MetadataCfg) (api : JObj) :
    metadataUpdateOne l r api = .ok (false, []) ∨
    metadataUpdateOne l r api = .error .keyErrorFields := by
  by_cases h : l = r
  · rw [h]
    exact .inl (metadataUpdateOne_self r api)
  · exact .inr (metadataUpdateOne_ne _ _ h _)

/-- Decoding a single metadata object yields a configuration, a
missing-field error or a validation error — never a corrupt-remote-state
error. -/
theorem metadataFromRemoteOne_cases (m : JObj) :
    (∃ cfg, metadataFromRemoteOne m = .ok cfg) ∨
    (∃ name, metadataFromRemoteOne m = .error (.missingRemoteField name)) ∨
    metadataFromRemoteOne m = .error .validation := by
  rcases h : getLocalAttrs mdDecMap m with name | attrs
  · exact .inr (.inl ⟨name, by simp [metadataFromRemoteOne, h]⟩)
  · rcases hv : jLookup kEnable attrs with _ | v
    · exact .inr (.inr (by simp [metadataFromRemoteOne, h, hv]))
    · cases v with
      | s v => exact .inr (.inr (by simp [metadataFromRemoteOne, h, hv]))
      | num v => exact .inr (.inr (by simp [metadataFromRemoteOne, h, hv]))
      | b b => exact .inl ⟨⟨b⟩, by simp [metadataFromRemoteOne, h, hv]⟩
      | null => exact .inr (.inr (by simp [metadataFromRemoteOne, h, hv]))
      | arr l => exact .inr (.inr (by simp [metadataFromRemoteOne, h, hv]))
      | obj o => exact .inr (.inr (by simp [metadataFromRemoteOne, h, hv]))

end BuildarrLidarr

namespace BuildarrLidarr

/-- C8: when the fetched metadata list lacks an entry whose
`implementation` is `XbmcMetadata`, `RoksboxMetadata` or `WdtvMetadata`,
both `from_remote` and `update_remote` fail with the corresponding
corrupt-remote-state `RuntimeError` before issuing any write (the trace
stops at the initial GET); when all three entries are present, neither
function raises such an error. -/
theorem c8_corrupt_remote_state :
    (∀ (impl : Str) (metaList : List JObj),
      findImpl impl metaList = none ↔
        ∀ m ∈ metaList, jLookup kImplementation m ≠ some (.s impl)) ∧
    (∀ metaList : List JObj, findImpl implXbmc metaList = none →
      metadataFromRemote metaList = .error .corruptKodi ∧
      ∀ self remote : MetadataConfig,
        metadataUpdateRemote self remote metaList = (.error .corruptKodi, [.getMetadata])) ∧
    (∀ (metaList : List JObj) (k : JObj), findImpl implXbmc metaList = some k →
      findImpl implRoksbox metaList = none →
      metadataFromRemote metaList = .error .corruptRoksbox ∧
      ∀ self remote : MetadataConfig,
        metadataUpdateRemote self remote metaList
          = (.error .corruptRoksbox, [.getMetadata])) ∧
    (∀ (metaList : List JObj) (k r : JObj), findImpl implXbmc metaList = some k →
      findImpl implRoksbox metaList = some r → findImpl implWdtv metaList = none →
      metadataFromRemote metaList = .error .corruptWdtv ∧
      ∀ self remote : MetadataConfig,
        metadataUpdateRemote self remote metaList
          = (.error .corruptWdtv, [.getMetadata])) ∧
    (∀ (metaList : List JObj) (k r w : JObj), findMetadataTriple metaList = .ok (k, r, w) →
      ((∃ cfg, metadataFromRemote metaList = .ok cfg) ∨
       (∃ name, metadataFromRemote metaList = .error (.missingRemoteField name)) ∨
       metadataFromRemote metaList = .error .validation) ∧
      ∀ self remote : MetadataConfig,
        (metadataUpdateRemote self remote metaList).1 = .ok false ∨
        (metadataUpdateRemote self remote metaList).1 = .error .keyErrorFields) := by
  refine ⟨findImpl_eq_none_iff, ?_, ?_, ?_, ?_⟩
  · intro metaList h
    constructor
    · simp [metadataFromRemote, findMetadataTriple, h]
    · intro self remote
      simp [metadataUpdateRemote, findMetadataTriple, h]
  · intro metaList k hk h
    constructor
    · simp [metadataFromRemote, findMetadataTriple, hk, h]
    · intro self remote
      simp [metadataUpdateRemote, findMetadataTriple, hk, h]
  · intro metaList k r hk hr h
    constructor
    · simp [metadataFromRemote, findMetadataTriple, hk, hr, h]
    · intro self remote
      simp [metadataUpdateRemote, findMetadataTriple, hk, hr, h]
  · intro metaList k r w h
    constructor
    · rcases metadataFromRemoteOne_cases k with ⟨c1, h1⟩ | ⟨n1, h1⟩ | h1 <;>
      rcases metadataFromRemoteOne_cases r with ⟨c2, h2⟩ | ⟨n2, h2⟩ | h2 <;>
      rcases metadataFromRemoteOne_cases w with ⟨c3, h3⟩ | ⟨n3, h3⟩ | h3 <;>
        simp [metadataFromRemote, h, h1, h2, h3]
    · intro self remote
      rcases metadataUpdateOne_cases self.kodi_emby remote.kodi_emby k with h1 | h1 <;>
      rcases metadataUpdateOne_cases self.roksbox remote.roksbox r with h2 | h2 <;>
      rcases metadataUpdateOne_cases self.wdtv remote.wdtv w with h3 | h3 <;>
        simp [metadataUpdateRemote, h, h1, h2, h3]

/-- Witness for C8: an empty metadata list lacks all three entries. -/
theorem c8_witness :
    metadataFromRemote [] = .error .corruptKodi ∧
    metadataUpdateRemote ⟨⟨false⟩, ⟨false⟩, ⟨false⟩⟩ ⟨⟨false⟩, ⟨false⟩, ⟨false⟩⟩ []
      = (.error .corruptKodi, [.getMetadata]) :=
  ⟨(c8_corrupt_remote_state.2.1 [] rfl).1, (c8_corrupt_remote_state.2.1 [] rfl).2 _ _⟩

end BuildarrLidarr

namespace BuildarrLidarr

/-- When every non-optional mapped field is present, decoding succeeds and
assigns each present field's decoded value to its local name, omitting
absent optional fields. -/
theorem getLocalAttrs_ok (tbl : List DecEntry) (o : JObj)
    (h : ∀ e ∈ tbl, e.opt = true ∨ (jLookup e.remoteName o).isSome = true) :
    getLocalAttrs tbl o = .ok (tbl.filterMap fun e =>
      (jLookup e.remoteName o).map fun v => (e.localName, e.dec v)) := by
  induction tbl with
  | nil => rfl
  | cons e es ih =>
    have hrest := ih fun e' he' => h e' (by simp [he'])
    rcases hv : jLookup e.remoteName o with _ | v
    · have hopt : e.opt = true := by
        rcases h e (by simp) with h' | h'
        · exact h'
        · rw [hv] at h'
          cases h'
      simp [getLocalAttrs, hv, hopt, hrest, List.filterMap_cons]
    · simp [getLocalAttrs, hv, hrest, List.filterMap_cons]

/-- When a non-optional mapped field is absent (and every earlier entry
decodes), decoding fails with the `MissingRemoteField` error naming that
remote field — no default is substituted. -/
theorem getLocalAttrs_missing (pre : List DecEntry) (e : DecEntry) (rest : List DecEntry)
    (o : JObj)
    (hpre : ∀ e' ∈ pre, e'.opt = true ∨ (jLookup e'.remoteName o).isSome = true)
    (he : e.opt = false) (hmiss : jLookup e.remoteName o = none) :
    getLocalAttrs (pre ++ e :: rest) o = .error e.remoteName := by
  induction pre with
  | nil => simp [getLocalAttrs, hmiss, he]
  | cons p ps ih =>
    have hrest := ih fun e' he' => hpre e' (by simp [he'])
    rcases hv : jLookup p.remoteName o with _ | v
    · have hopt : p.opt = true := by
        rcases hpre p (by simp) with h' | h'
        · exact h'
        · rw [hv] at h'
          cases h'
      simp [getLocalAttrs, hv, hopt, hrest]
    · simp [getLocalAttrs, hv, hrest]

/-- Whenever some non-optional mapped field is absent, decoding fails with
a `MissingRemoteField` error (of the first such field reached). -/
theorem getLocalAttrs_missing_exists (tbl : List DecEntry) (o : JObj)
    (h : ∃ e ∈ tbl, e.opt = false ∧ jLookup e.remoteName o = none) :
    ∃ n, getLocalAttrs tbl o = .error n := by
  induction tbl with
  | nil => simp at h
  | cons p ps ih =>
    obtain ⟨e, hmem, hopt, hmiss⟩ := h
    rcases hv : jLookup p.remoteName o with _ | v
    · by_cases hp : p.opt = true
      · have hmem' : e ∈ ps := by
          rcases List.mem_cons.1 hmem with h' | h'
          · subst h'
            rw [hp] at hopt
            cases hopt
          · exact h'
        obtain ⟨n, hn⟩ := ih ⟨e, hmem', hopt, hmiss⟩
        exact ⟨n, by simp [getLocalAttrs, hv, hp, hn]⟩
      · exact ⟨p.remoteName, by simp [getLocalAttrs, hv, hp]⟩
    · have hmem' : e ∈ ps := by
        rcases List.mem_cons.1 hmem with h' | h'
        · subst h'
          rw [hv] at hmiss
          cases hmiss
        · exact h'
      obtain ⟨n, hn⟩ := ih ⟨e, hmem', hopt, hmiss⟩
      exact ⟨n, by simp [getLocalAttrs, hv, hn]⟩

/-- C10: decoding through a mapping table fails with `MissingRemoteField`
whenever a non-optional mapped field is absent, and succeeds with absent
optional entries omitted otherwise; on the security table, an object
carrying only the two non-optional fields decodes successfully and the
three optional credential fields take their declared default `None`,
while an object missing `certificateValidation` fails naming that
field. -/
theorem c10_missing_remote_field :
    (∀ (tbl : List DecEntry) (o : JObj),
      (∃ e ∈ tbl, e.opt = false ∧ jLookup e.remoteName o = none) →
        ∃ n, getLocalAttrs tbl o = .error n) ∧
    (∀ (pre : List DecEntry) (e : DecEntry) (rest : List DecEntry) (o : JObj),
      (∀ e' ∈ pre, e'.opt = true ∨ (jLookup e'.remoteName o).isSome = true) →
        e.opt = false → jLookup e.remoteName o = none →
        getLocalAttrs (pre ++ e :: rest) o = .error e.remoteName) ∧
    (∀ (tbl : List DecEntry) (o : JObj),
      (∀ e ∈ tbl, e.opt = true ∨ (jLookup e.remoteName o).isSome = true) →
        getLocalAttrs tbl o = .ok (tbl.filterMap fun e =>
          (jLookup e.remoteName o).map fun v => (e.localName, e.dec v))) ∧
    getLocalAttrs securityDecMap
        [(js "authenticationMethod", .s (js "none")),
         (js "certificateValidation", .s (js "enabled"))]
      = .ok [(js "authentication", .s (js "none")),
             (js "certificate_validation", .s (js "enabled"))] ∧
    securityOptDefault
        [(js "authentication", .s (js "none")),
         (js "certificate_validation", .s (js "enabled"))] (js "username") = .null ∧
    securityOptDefault
        [(js "authentication", .s (js "none")),
         (js "certificate_validation", .s (js "enabled"))] (js "password") = .null ∧
    securityOptDefault
        [(js "authentication", .s (js "none")),
         (js "certificate_validation", .s (js "enabled"))] (js "password_confirmation")
      = .null ∧
    getLocalAttrs securityDecMap [(js "authenticationMethod", .s (js "none"))]
      = .error (js "certificateValidation") :=
  ⟨getLocalAttrs_missing_exists, getLocalAttrs_missing, getLocalAttrs_ok,
   rfl, rfl, rfl, rfl, rfl⟩

/-- Witness for C10: the security table applied to an object missing the
non-optional `certificateValidation` field. -/
theorem c10_witness :
    ∃ n, getLocalAttrs securityDecMap [(js "authenticationMethod", .s (js "none"))]
      = .error n :=
  c10_missing_remote_field.1 securityDecMap _
    ⟨⟨js "certificate_validation", js "certificateValidation", false, id⟩,
     by simp [securityDecMap], rfl, rfl⟩

end BuildarrLidarr

namespace BuildarrLidarr

/-! ### String lemmas for the codec round trips (claim C4) -/

/-- The `pySplit` always yields at least one part. -/
theorem pySplit_ne_nil (sep : Char) (s : Str) : pySplit sep s ≠ [] := by
  induction s with
  | nil => simp [pySplit]
  | cons c cs ih =>
    unfold pySplit
    by_cases h : c = sep
    · simp [h]
    · simp only [h, if_neg, Bool.false_eq_true]
      cases hs : pySplit sep cs with
      | nil => simp
      | cons p ps => simp

/-- Splitting a separator-free string yields that string as the one part. -/
theorem pySplit_no_sep (sep : Char) (p : Str) (hp : sep ∉ p) : pySplit sep p = [p] := by
  induction p with
  | nil => rfl
  | cons c cs ih =>
    have hc : ¬c = sep := fun h => hp (h ▸ List.mem_cons_self c cs)
    have ih' := ih fun h => hp (List.mem_cons_of_mem c h)
    unfold pySplit
    rw [if_neg hc, ih']

/-- Splitting after a separator-free prefix peels off that prefix. -/
theorem pySplit_append (sep : Char) (p t : Str) (hp : sep ∉ p) :
    pySplit sep (p ++ sep :: t) = p :: pySplit sep t := by
  induction p with
  | nil => simp [pySplit]
  | cons c cs ih =>
    have hc : ¬c = sep := fun h => hp (h ▸ List.mem_cons_self c cs)
    have ih' := ih fun h => hp (List.mem_cons_of_mem c h)
    simp only [List.cons_append, pySplit, if_neg hc]
    rw [List.append_eq, ih']

/-- Splitting a join of separator-free parts recovers the parts. -/
theorem pySplit_pyJoinC (sep : Char) (l : List Str) (hl : l ≠ [])
    (hparts : ∀ p ∈ l, sep ∉ p) : pySplit sep (pyJoinC sep l) = l := by
  induction l with
  | nil => cases hl rfl
  | cons p rest ih =>
    cases rest with
    | nil => exact pySplit_no_sep sep p (hparts p (by simp))
    | cons q ps =>
      have h1 : pyJoinC sep (p :: q :: ps) = p ++ sep :: pyJoinC sep (q :: ps) := rfl
      rw [h1, pySplit_append sep p _ (hparts p (by simp)),
        ih (by simp) fun x hx => hparts x (List.mem_cons_of_mem p hx)]

/-- Joining the parts of a split recovers the original string. -/
theorem pyJoinC_pySplit (sep : Char) (s : Str) : pyJoinC sep (pySplit sep s) = s := by
  induction s with
  | nil => rfl
  | cons c cs ih =>
    unfold pySplit
    by_cases h : c = sep
    · subst h
      rw [if_pos rfl]
      cases hs : pySplit c cs with
      | nil => exact absurd hs (pySplit_ne_nil c cs)
      | cons p ps =>
        have : pyJoinC c ([] :: p :: ps) = c :: pyJoinC c (p :: ps) := rfl
        rw [this, ← hs, ih]
    · rw [if_neg h]
      cases hs : pySplit sep cs with
      | nil => exact absurd hs (pySplit_ne_nil sep cs)
      | cons p ps =>
        cases ps with
        | nil =>
          have : pyJoinC sep [c :: p] = c :: p := rfl
          rw [this]
          have h2 : pyJoinC sep [p] = p := rfl
          rw [hs, h2] at ih
          rw [ih]
        | cons q qs =>
          have : pyJoinC sep ((c :: p) :: q :: qs) = (c :: p) ++ sep :: pyJoinC sep (q :: qs)
            := rfl
          rw [this]
          have h2 : pyJoinC sep (p :: q :: qs) = p ++ sep :: pyJoinC sep (q :: qs) := rfl
          rw [hs, h2] at ih
          simpa using ih

/-- A non-empty join of non-empty parts is non-empty. -/
theorem pyJoinC_ne_nil (sep : Char) (l : List Str) (hl : l ≠ [])
    (h : ∀ p ∈ l, p ≠ []) : pyJoinC sep l ≠ [] := by
  cases l with
  | nil => cases hl rfl
  | cons p rest =>
    cases rest with
    | nil => exact h p (by simp)
    | cons q ps => simp [pyJoinC]

/-- Every character of a join is the separator or a character of a part. -/
theorem mem_pyJoinC (sep : Char) (l : List Str) (c : Char) (hc : c ∈ pyJoinC sep l) :
    c = sep ∨ ∃ p ∈ l, c ∈ p := by
  induction l with
  | nil => cases hc
  | cons p rest ih =>
    cases rest with
    | nil => exact .inr ⟨p, by simp, hc⟩
    | cons q ps =>
      have : pyJoinC sep (p :: q :: ps) = p ++ sep :: pyJoinC sep (q :: ps) := rfl
      rw [this] at hc
      rcases List.mem_append.1 hc with h1 | h1
      · exact .inr ⟨p, by simp, h1⟩
      · rcases List.mem_cons.1 h1 with h2 | h2
        · exact .inl h2
        · rcases ih h2 with h3 | ⟨x, hx, hcx⟩
          · exact .inl h3
          · exact .inr ⟨x, List.mem_cons_of_mem p hx, hcx⟩

/-- A string containing a non-whitespace character does not strip to
empty. -/
theorem pyStrip_ne_nil (s : Str) (c : Char) (hc : c ∈ s) (hw : pySpace c = false) :
    pyStrip s ≠ [] := by
  intro h
  unfold pyStrip at h
  rw [List.reverse_eq_nil_iff, List.dropWhile_eq_nil_iff] at h
  have hmem : c ∈ List.dropWhile pySpace s := by
    rw [← List.takeWhile_append_dropWhile (p := pySpace) (l := s)] at hc
    rcases List.mem_append.1 hc with h1 | h1
    · rw [List.mem_takeWhile_imp h1] at hw
      cases hw
    · exact h1
  rw [h c (List.mem_reverse.2 hmem)] at hw
  cases hw

end BuildarrLidarr

namespace BuildarrLidarr

/-- A comma-join of non-empty strip-fixed parts does not strip to empty. -/
theorem pyStrip_pyJoinC_ne_nil (l : List Str) (hl : l ≠ [])
    (h : ∀ p ∈ l, p ≠ [] ∧ pyStrip p = p) : pyStrip (pyJoinC ',' l) ≠ [] := by
  cases l with
  | nil => cases hl rfl
  | cons p rest =>
    cases rest with
    | nil =>
      have h1 : pyJoinC ',' [p] = p := rfl
      rw [h1, (h p (by simp)).2]
      exact (h p (by simp)).1
    | cons q ps =>
      apply pyStrip_ne_nil _ ',' _ (by decide)
      have h1 : pyJoinC ',' (p :: q :: ps) = p ++ ',' :: pyJoinC ',' (q :: ps) := rfl
      rw [h1]
      simp

/-- Round trip of the `ignored_addresses` codec, decode after encode: on a
set whose members are non-empty, strip-fixed and comma-free, decoding the
encoded string recovers the set. -/
theorem decIgnored_encIgnored (s : Finset Str)
    (h : ∀ p ∈ s, p ≠ [] ∧ pyStrip p = p ∧ ',' ∉ p) :
    decIgnored (encIgnored s) = s := by
  by_cases hs : s = ∅
  · subst hs
    simp [encIgnored, decIgnored]
  · have hl : s.sort (· ≤ ·) ≠ [] := by
      intro h0
      apply hs
      rw [← Finset.card_eq_zero, ← Finset.length_sort (· ≤ ·), h0]
      rfl
    have hmem : ∀ p ∈ s.sort (· ≤ ·), p ∈ s := fun p hp => (Finset.mem_sort _).1 hp
    have hne : ∀ p ∈ s.sort (· ≤ ·), p ≠ [] := fun p hp => (h p (hmem p hp)).1
    have hnosep : ∀ p ∈ s.sort (· ≤ ·), ',' ∉ p := fun p hp => (h p (hmem p hp)).2.2
    have hjoin : pyJoinC ',' (s.sort (· ≤ ·)) ≠ [] := pyJoinC_ne_nil _ _ hl hne
    have hstrip : pyStrip (pyJoinC ',' (s.sort (· ≤ ·))) ≠ [] :=
      pyStrip_pyJoinC_ne_nil _ hl fun p hp => ⟨(h p (hmem p hp)).1, (h p (hmem p hp)).2.1⟩
    unfold encIgnored decIgnored
    rw [if_neg hs, if_pos (by simp [List.isEmpty_iff, hjoin, hstrip])]
    rw [pySplit_pyJoinC ',' _ hl hnosep]
    rw [List.map_congr_left fun p hp => (h p (hmem p hp)).2.1]
    rw [List.map_id']
    exact Finset.sort_toFinset _ s

/-- Round trip of the `ignored_addresses` codec, encode after decode: on a
canonical remote string (a comma-join of a strictly sorted list of
non-empty, strip-fixed, comma-free parts — including the empty join),
encoding the decoded set recovers the string. -/
theorem encIgnored_decIgnored (l : List Str) (hsort : l.Sorted (· < ·))
    (h : ∀ p ∈ l, p ≠ [] ∧ pyStrip p = p ∧ ',' ∉ p) :
    encIgnored (decIgnored (pyJoinC ',' l)) = pyJoinC ',' l := by
  by_cases hl : l = []
  · subst hl
    simp [pyJoinC, decIgnored, encIgnored]
  · have hne : ∀ p ∈ l, p ≠ [] := fun p hp => (h p hp).1
    have hnosep : ∀ p ∈ l, ',' ∉ p := fun p hp => (h p hp).2.2
    have hjoin : pyJoinC ',' l ≠ [] := pyJoinC_ne_nil _ _ hl hne
    have hstrip : pyStrip (pyJoinC ',' l) ≠ [] :=
      pyStrip_pyJoinC_ne_nil _ hl fun p hp => ⟨(h p hp).1, (h p hp).2.1⟩
    have hnodup : l.Nodup := hsort.nodup
    unfold decIgnored
    rw [if_pos (by simp [List.isEmpty_iff, hjoin, hstrip])]
    rw [pySplit_pyJoinC ',' _ hl hnosep]
    rw [List.map_congr_left fun p hp => (h p hp).2.1]
    rw [List.map_id']
    unfold encIgnored
    rw [if_neg (by simpa using hl)]
    rw [(List.toFinset_sort (· ≤ ·) hnodup).mpr (hsort.imp le_of_lt)]

end BuildarrLidarr

namespace BuildarrLidarr

/-- Digit characters render digits. -/
theorem digitChar_isDig (k : Nat) (hk : k < 10) : isDig (Nat.digitChar k) = true := by
  interval_cases k <;> decide

/-- Every character of a rendered octet is a digit. -/
theorem octStr_isDig (n : Nat) (hn : n < 1000) (c : Char) (hc : c ∈ octStr n) :
    isDig c = true := by
  unfold octStr at hc
  by_cases h1 : n < 10
  · rw [if_pos h1] at hc
    rcases List.mem_singleton.1 hc with rfl
    exact digitChar_isDig n h1
  · rw [if_neg h1] at hc
    by_cases h2 : n < 100
    · rw [if_pos h2] at hc
      rcases List.mem_cons.1 hc with rfl | hc'
      · exact digitChar_isDig _ (by omega)
      · rcases List.mem_singleton.1 hc' with rfl
        exact digitChar_isDig _ (Nat.mod_lt _ (by omega))
    · rw [if_neg h2] at hc
      rcases List.mem_cons.1 hc with rfl | hc'
      · exact digitChar_isDig _ (by omega)
      · rcases List.mem_cons.1 hc' with rfl | hc''
        · exact digitChar_isDig _ (Nat.mod_lt _ (by omega))
        · rcases List.mem_singleton.1 hc'' with rfl
          exact digitChar_isDig _ (Nat.mod_lt _ (by omega))

/-- Parsing a rendered octet value recovers the value. -/
theorem parseOctet_octStr (n : Nat) (hn : n ≤ 255) : parseOctet (octStr n) = some n := by
  revert hn
  revert n
  set_option maxRecDepth 4000 in
  decide

end BuildarrLidarr

namespace BuildarrLidarr

/-- A digit character's value is below ten. -/
theorem dVal_lt_10 (c : Char) (h : isDig c = true) : dVal c < 10 := by
  have h' : c ∈ ['0', '1', '2', '3', '4', '5', '6', '7', '8', '9'] := of_decide_eq_true h
  fin_cases h' <;> decide

/-- Rendering a digit character's value gives the character back. -/
theorem digitChar_dVal (c : Char) (h : isDig c = true) : Nat.digitChar (dVal c) = c := by
  have h' : c ∈ ['0', '1', '2', '3', '4', '5', '6', '7', '8', '9'] := of_decide_eq_true h
  fin_cases h' <;> rfl

/-- A non-zero digit character has a positive value. -/
theorem dVal_pos (c : Char) (h : isDig c = true) (h0 : c ≠ '0') : 1 ≤ dVal c := by
  have h' : c ∈ ['0', '1', '2', '3', '4', '5', '6', '7', '8', '9'] := of_decide_eq_true h
  fin_cases h' <;> first | exact absurd rfl h0 | decide

/-- Rendering a parsed octet gives the original octet string back. -/
theorem octStr_parseOctet (p : Str) (n : Nat) (h : parseOctet p = some n) : octStr n = p := by
  match p with
  | [] => cases h
  | [a] =>
    rw [show parseOctet [a] = if isDig a = true then some (dVal a) else none from rfl] at h
    split_ifs at h with hd
    injection h with hn
    subst hn
    unfold octStr
    rw [if_pos (dVal_lt_10 a hd), digitChar_dVal a hd]
  | [a, b] =>
    rw [show parseOctet [a, b] = if (isDig a && isDig b && a != '0') = true then
      some (10 * dVal a + dVal b) else none from rfl] at h
    split_ifs at h with hd
    injection h with hn
    subst hn
    simp only [Bool.and_eq_true, bne_iff_ne] at hd
    obtain ⟨⟨ha, hb⟩, hne⟩ := hd
    have h1 := dVal_pos a ha hne
    have h2 := dVal_lt_10 a ha
    have h3 := dVal_lt_10 b hb
    unfold octStr
    rw [if_neg (by omega), if_pos (by omega)]
    have e1 : (10 * dVal a + dVal b) / 10 = dVal a := by omega
    have e2 : (10 * dVal a + dVal b) % 10 = dVal b := by omega
    rw [e1, e2, digitChar_dVal a ha, digitChar_dVal b hb]
  | [a, b, c] =>
    rw [show parseOctet [a, b, c] = if (isDig a && isDig b && isDig c && a != '0'
        && decide (100 * dVal a + 10 * dVal b + dVal c ≤ 255)) = true then
      some (100 * dVal a + 10 * dVal b + dVal c) else none from rfl] at h
    split_ifs at h with hd
    injection h with hn
    subst hn
    simp only [Bool.and_eq_true, bne_iff_ne, decide_eq_true_eq] at hd
    obtain ⟨⟨⟨⟨ha, hb⟩, hc⟩, hne⟩, hle⟩ := hd
    have h1 := dVal_pos a ha hne
    have h2 := dVal_lt_10 a ha
    have h3 := dVal_lt_10 b hb
    have h4 := dVal_lt_10 c hc
    unfold octStr
    rw [if_neg (by omega), if_neg (by omega)]
    have e1 : (100 * dVal a + 10 * dVal b + dVal c) / 100 = dVal a := by omega
    have e2 : (100 * dVal a + 10 * dVal b + dVal c) / 10 % 10 = dVal b := by omega
    have e3 : (100 * dVal a + 10 * dVal b + dVal c) % 10 = dVal c := by omega
    rw [e1, e2, e3, digitChar_dVal a ha, digitChar_dVal b hb, digitChar_dVal c hc]
  | _ :: _ :: _ :: _ :: _ => cases h

/-- Round trip of the `bind_address` codec, decode after encode, on
representable addresses. -/
theorem decBind_encBind (x : BindAddress) (hx : x.valid) : decBind (encBind x) = some x := by
  cases x with
  | star => rfl
  | ipv4 a b c d =>
    obtain ⟨ha, hb, hc, hd⟩ := hx
    have hdig : ∀ p ∈ [octStr a, octStr b, octStr c, octStr d], '.' ∉ p := by
      intro p hp hcp
      have h1000 : ∀ m ∈ [a, b, c, d], m < 1000 := by
        intro m hm
        rcases List.mem_cons.1 hm with rfl | hm'
        · omega
        · rcases List.mem_cons.1 hm' with rfl | hm''
          · omega
          · rcases List.mem_cons.1 hm'' with rfl | hm'''
            · omega
            · rcases List.mem_singleton.1 hm''' with rfl
              omega
      rcases List.mem_cons.1 hp with rfl | hp'
      · have := octStr_isDig a (by omega) _ hcp
        cases this
      · rcases List.mem_cons.1 hp' with rfl | hp''
        · have := octStr_isDig b (by omega) _ hcp
          cases this
        · rcases List.mem_cons.1 hp'' with rfl | hp'''
          · have := octStr_isDig c (by omega) _ hcp
            cases this
          · rcases List.mem_singleton.1 hp''' with rfl
            have := octStr_isDig d (by omega) _ hcp
            cases this
    have hstar : encBind (.ipv4 a b c d) ≠ js "*" := by
      intro h0
      have hmem : '*' ∈ pyJoinC '.' [octStr a, octStr b, octStr c, octStr d] := by
        rw [show pyJoinC '.' [octStr a, octStr b, octStr c, octStr d]
            = encBind (.ipv4 a b c d) from rfl, h0]
        simp [js]
      rcases mem_pyJoinC _ _ _ hmem with h1 | ⟨p, hp, hcp⟩
      · cases h1
      · rcases List.mem_cons.1 hp with rfl | hp'
        · have := octStr_isDig a (by omega) _ hcp
          cases this
        · rcases List.mem_cons.1 hp' with rfl | hp''
          · have := octStr_isDig b (by omega) _ hcp
            cases this
          · rcases List.mem_cons.1 hp'' with rfl | hp'''
            · have := octStr_isDig c (by omega) _ hcp
              cases this
            · rcases List.mem_singleton.1 hp''' with rfl
              have := octStr_isDig d (by omega) _ hcp
              cases this
    unfold decBind
    rw [if_neg hstar]
    rw [show encBind (.ipv4 a b c d)
        = pyJoinC '.' [octStr a, octStr b, octStr c, octStr d] from rfl]
    rw [pySplit_pyJoinC '.' _ (by simp) hdig]
    simp only [parseOctet_octStr a ha, parseOctet_octStr b hb, parseOctet_octStr c hc,
      parseOctet_octStr d hd]

/-- Round trip of the `bind_address` codec, encode after decode: every
remote value the decoder accepts is re-encoded verbatim. -/
theorem encBind_decBind (y : Str) (x : BindAddress) (h : decBind y = some x) :
    encBind x = y := by
  unfold decBind at h
  by_cases hstar : y = js "*"
  · rw [if_pos hstar] at h
    injection h with h'
    subst h'
    exact hstar.symm
  · rw [if_neg hstar] at h
    match hsp : pySplit '.' y with
    | [] => rw [hsp] at h; cases h
    | [p1] => rw [hsp] at h; cases h
    | [p1, p2] => rw [hsp] at h; cases h
    | [p1, p2, p3] => rw [hsp] at h; cases h
    | [p1, p2, p3, p4] =>
      rw [hsp] at h
      match h1 : parseOctet p1, h2 : parseOctet p2, h3 : parseOctet p3,
          h4 : parseOctet p4 with
      | some a, some b, some c, some d =>
        simp only [h1, h2, h3, h4, Option.some.injEq] at h
        subst h
        rw [show encBind (.ipv4 a b c d)
            = pyJoinC '.' [octStr a, octStr b, octStr c, octStr d] from rfl]
        rw [octStr_parseOctet p1 a h1, octStr_parseOctet p2 b h2,
          octStr_parseOctet p3 c h3, octStr_parseOctet p4 d h4]
        rw [← hsp, pyJoinC_pySplit]
      | none, _, _, _ =>
        simp only [h1] at h
        cases h
      | some a, none, _, _ =>
        simp only [h1, h2] at h
        cases h
      | some a, some b, none, _ =>
        simp only [h1, h2, h3] at h
        cases h
      | some a, some b, some c, none =>
        simp only [h1, h2, h3, h4] at h
        cases h
    | p1 :: p2 :: p3 :: p4 :: p5 :: rest => rw [hsp] at h; cases h

end BuildarrLidarr

namespace BuildarrLidarr

/-- C4 counterexample: the `ignored_addresses` codec does not round-trip
every representable remote value: the remote string `"b,a"` decodes to the
set of `"a"` and `"b"`, which re-encodes to the sorted join `"a,b"`, not
`"b,a"`; likewise the optional-string codec maps the representable local
value `""` to `""` which decodes back to `None`, not `""`. -/
theorem c4_counterexample :
    decIgnored (js "b,a") = ({js "a", js "b"} : Finset Str) ∧
    encIgnored (decIgnored (js "b,a")) = js "a,b" ∧
    js "a,b" ≠ js "b,a" ∧
    decOptStr (encOptStr (some [])) = none ∧ some ([] : Str) ≠ none := by
  refine ⟨by decide, ?_, by decide, rfl, by decide⟩
  rw [show decIgnored (js "b,a") = ({js "a", js "b"} : Finset Str) by decide]
  unfold encIgnored
  rw [if_neg (by decide)]
  rw [show ({js "a", js "b"} : Finset Str) = [js "a", js "b"].toFinset by decide]
  rw [(List.toFinset_sort (· ≤ ·) (by decide)).mpr (by decide)]
  decide

/-- C4 amended: every mapping entry of the host and proxy tables without a
`root_encoder` round-trips on its canonical values.  The optional-string
and secret codecs satisfy `encode(decode(y)) = y` for every remote string
and `decode(encode(x)) = x` for every local value except `Some ""` (which
encodes like `None`, to `""`; the `None` ⇄ `""` special case holds).  The
enumeration codec (`proxy_type`) and the `bind_address` codec round-trip
on all representable values.  The `ignored_addresses` codec round-trips on
sets of non-empty, strip-fixed, comma-free members, and on remote strings
that are strictly-sorted comma-joins of such members (including `""`).
Entries with neither encoder nor decoder use the identity codec and
round-trip trivially. -/
theorem c4_round_trip :
    (∀ x : Option Str, x ≠ some [] → decOptStr (encOptStr x) = x) ∧
    (encOptStr none = [] ∧ decOptStr [] = none ∧ decOptStr (encOptStr (some [])) = none) ∧
    (∀ y : Str, encOptStr (decOptStr y) = y) ∧
    (∀ x : Option Str, x ≠ some [] → decSecret (encSecret x) = x) ∧
    (∀ y : Str, encSecret (decSecret y) = y) ∧
    (∀ x : ProxyType, decProxyType (encProxyType x) = some x) ∧
    (∀ (y : Str) (x : ProxyType), decProxyType y = some x → encProxyType x = y) ∧
    (∀ x : BindAddress, x.valid → decBind (encBind x) = some x) ∧
    (∀ (y : Str) (x : BindAddress), decBind y = some x → encBind x = y) ∧
    (∀ s : Finset Str, (∀ p ∈ s, p ≠ [] ∧ pyStrip p = p ∧ ',' ∉ p) →
      decIgnored (encIgnored s) = s) ∧
    (∀ l : List Str, l.Sorted (· < ·) → (∀ p ∈ l, p ≠ [] ∧ pyStrip p = p ∧ ',' ∉ p) →
      encIgnored (decIgnored (pyJoinC ',' l)) = pyJoinC ',' l) ∧
    (∀ v : JVal, idCodec (idCodec v) = v) := by
  refine ⟨?_, ⟨rfl, rfl, rfl⟩, ?_, ?_, ?_, ?_, ?_, decBind_encBind, encBind_decBind,
    decIgnored_encIgnored, encIgnored_decIgnored, fun v => rfl⟩
  · intro x hx
    cases x with
    | none => rfl
    | some v =>
      have hv : v ≠ [] := fun h => hx (by rw [h])
      simp [encOptStr, decOptStr, List.isEmpty_iff, hv]
  · intro y
    by_cases hy : y = []
    · subst hy
      rfl
    · simp [decOptStr, encOptStr, List.isEmpty_iff, hy]
  · intro x hx
    cases x with
    | none => rfl
    | some v =>
      have hv : v ≠ [] := fun h => hx (by rw [h])
      simp [encSecret, decSecret, List.isEmpty_iff, hv]
  · intro y
    by_cases hy : y = []
    · subst hy
      rfl
    · simp [decSecret, encSecret, List.isEmpty_iff, hy]
  · intro x
    cases x <;> rfl
  · intro y x h
    unfold decProxyType at h
    split_ifs at h with h1 h2 h3
    · injection h with h'
      subst h'
      exact h1.symm
    · injection h with h'
      subst h'
      exact h2.symm
    · injection h with h'
      subst h'
      exact h3.symm

/-- Witness for C4 at concrete codec inputs. -/
theorem c4_witness :
    decOptStr (encOptStr (some (js "api"))) = some (js "api") ∧
    decSecret (encSecret (some (js "pw"))) = some (js "pw") ∧
    encProxyType .http = js "http" ∧
    decBind (encBind (.ipv4 127 0 0 1)) = some (.ipv4 127 0 0 1) ∧
    decIgnored (encIgnored {js "a"}) = {js "a"} ∧
    encIgnored (decIgnored (pyJoinC ',' [js "a", js "b"])) = pyJoinC ',' [js "a", js "b"] :=
  ⟨c4_round_trip.1 _ (by decide),
   c4_round_trip.2.2.2.1 _ (by decide),
   c4_round_trip.2.2.2.2.2.2.1 (js "http") .http rfl,
   c4_round_trip.2.2.2.2.2.2.2.1 _ ⟨by omega, by omega, by omega, by omega⟩,
   c4_round_trip.2.2.2.2.2.2.2.2.2.1 _ (by decide),
   c4_round_trip.2.2.2.2.2.2.2.2.2.2.1 _ (by decide) (by decide)⟩

end BuildarrLidarr
